import Mathlib

/-!
The slow-query-log parser of sql-replay (`parse.go`).

A shallow embedding of `ParseLogs`, `processQueryTimeAndRowsSent` and
`finalizeEntry`, together with the library semantics they rely on
(`strings`, `regexp`, `strconv`, float64 arithmetic), and theorems about the
records the parser emits.

Conventions of the embedding:

* a Go `string` is a list of Unicode code points (`Str`); the input file is
  the list of lines that `bufio.Scanner` yields;
* the output file is the list of `LogEntry` values handed to `json.Marshal`,
  in the order in which they are written;
* a `float64` is modelled exactly: a finite value is `±m·2^e`, and every
  operation is the exact operation followed by rounding to nearest, ties to
  even, on 53 bits (IEEE 754 binary64);
* `int` is 64 bits wide;
* the TiDB normaliser, the digest, `time.Parse` and the platform-dependent
  result of converting an out-of-range float to `int64` are parameters
  (`Deps`).
-/

namespace SqlReplay

/-! ## Strings -/

/-- A Go string, as the list of its code points. -/
abbrev Str := List Char

/-- Go `unicode.IsSpace`: the code points with the White_Space property. -/
def isSpace (c : Char) : Bool :=
  let n := c.toNat
  (9 ≤ n && n ≤ 13) || n = 32 || n = 0x85 || n = 0xA0 || n = 0x1680 ||
  (0x2000 ≤ n && n ≤ 0x200A) || n = 0x2028 || n = 0x2029 || n = 0x202F ||
  n = 0x205F || n = 0x3000

/-- Go `strings.HasPrefix`. -/
def HasPrefix (s p : Str) : Bool := p.isPrefixOf s

/-- Go `strings.TrimSpace`: drop leading and trailing white space. -/
def TrimSpace (s : Str) : Str := (s.dropWhile isSpace).rdropWhile isSpace

/-- Worker of `Fields`: `cur` is the field being read. -/
def fieldsAux : Str → Str → List Str
  | [], cur => if cur = [] then [] else [cur]
  | c :: cs, cur =>
    if isSpace c then (if cur = [] then fieldsAux cs [] else cur :: fieldsAux cs [])
    else fieldsAux cs (cur ++ [c])

/-- Go `strings.Fields`: the maximal runs of non-space code points. -/
def Fields (s : Str) : List Str := fieldsAux s []

/-! ## float64 -/

/-- The float64 values that occur: finite `±m·2^e` (kept canonical: `m` odd,
or `m = 0` and `e = 0`) and the infinities. -/
inductive F64 where
  | fin (neg : Bool) (m : Nat) (e : Int)
  | inf (neg : Bool)
deriving DecidableEq, Repr

/-- The zero value of a Go `float64`. -/
def F64.zero : F64 := .fin false 0 0

/-- Worker of `bitLen`. -/
def bitLenAux : Nat → Nat → Nat
  | 0, _ => 0
  | fuel + 1, n => if n = 0 then 0 else bitLenAux fuel (n / 2) + 1

/-- Number of binary digits of `n`. -/
def bitLen (n : Nat) : Nat := bitLenAux n n

/-- Decides `num / den ≥ 2^l`. -/
def ratioGe (num den : Nat) (l : Int) : Bool :=
  if 0 ≤ l then decide (den * 2 ^ l.toNat ≤ num) else decide (den ≤ num * 2 ^ (-l).toNat)

/-- The integer `⌊log₂ (num / den)⌋`, for positive `num` and `den`. -/
def ilog2Ratio (num den : Nat) : Int :=
  let l : Int := (bitLen num : Int) - (bitLen den : Int)
  if ratioGe num den l then l else l - 1

/-- Worker of `F64.canon`: strip trailing zero bits of the mantissa. -/
def canonAux : Nat → Nat → Int → Nat × Int
  | 0, m, e => (m, e)
  | fuel + 1, m, e => if m ≠ 0 ∧ m % 2 = 0 then canonAux fuel (m / 2) (e + 1) else (m, e)

/-- The canonical representation of `±m·2^e`. -/
def F64.canon (neg : Bool) (m : Nat) (e : Int) : F64 :=
  if m = 0 then .fin neg 0 0 else .fin neg (canonAux 64 m e).1 (canonAux 64 m e).2

/-- Round the rational `±num/den` to the nearest float64, ties to even.
Results of magnitude `2^1024` or more overflow to an infinity; below `2^-1022`
the spacing is that of the subnormals, `2^-1074`. -/
def roundNE (neg : Bool) (num den : Nat) : F64 :=
  if num = 0 ∨ den = 0 then .fin neg 0 0 else
  let e : Int := max (ilog2Ratio num den - 52) (-1074)
  let n1 := if e < 0 then num * 2 ^ (-e).toNat else num
  let d1 := if e < 0 then den else den * 2 ^ e.toNat
  let q := n1 / d1
  let r := n1 % d1
  let m := if d1 < 2 * r ∨ (2 * r = d1 ∧ q % 2 = 1) then q + 1 else q
  if 1025 ≤ (bitLen m : Int) + e then .inf neg else F64.canon neg m e

/-- Conversion `float64(n)` of an integer. -/
def F64.ofInt (n : Int) : F64 := roundNE (decide (n < 0)) n.natAbs 1

/-- Float64 product `x * k` where `k` is an integer constant that float64
represents exactly. -/
def F64.mulNat : F64 → Nat → F64
  | .inf neg, _ => .inf neg
  | .fin neg m e, k =>
    if 0 ≤ e then roundNE neg (m * k * 2 ^ e.toNat) 1 else roundNE neg (m * k) (2 ^ (-e).toNat)

/-- Float64 quotient `x / k` where `k` is a positive integer constant that
float64 represents exactly. -/
def F64.divNat : F64 → Nat → F64
  | .inf neg, _ => .inf neg
  | .fin neg m e, k =>
    if 0 ≤ e then roundNE neg (m * 2 ^ e.toNat) k else roundNE neg m (k * 2 ^ (-e).toNat)

/-- The integer part (truncation toward zero) of a finite float64. -/
def F64.trunc : F64 → Option Int
  | .inf _ => none
  | .fin neg m e =>
    let a : Nat := if 0 ≤ e then m * 2 ^ e.toNat else m / 2 ^ (-e).toNat
    some (if neg then -(a : Int) else (a : Int))

/-- Go conversion `int64(x)`: truncation toward zero when the result fits in
an `int64`; otherwise the result is implementation-dependent and given by
`impl`. -/
def F64.toInt64 (impl : F64 → Int) (x : F64) : Int :=
  match x.trunc with
  | some t => if -(2 : Int) ^ 63 ≤ t ∧ t < (2 : Int) ^ 63 then t else impl x
  | none => impl x

/-! ## strconv -/

/-- The ASCII decimal digits (regexp class `\d`). -/
def isDigit (c : Char) : Bool := 48 ≤ c.toNat && c.toNat ≤ 57

/-- Value of a string of decimal digits. -/
def digitsVal (s : Str) : Nat := s.foldl (fun acc c => acc * 10 + (c.toNat - 48)) 0

/-- Go `strconv.ParseFloat(s, 64)` on the unsigned decimal form
`digits.digits`, the only form the call site can pass: the nearest float64 to
the decimal value (an infinity on overflow). The second component is `true`
when an error is returned; every other string is reported here as a syntax
error, with value 0. -/
def ParseFloat (s : Str) : F64 × Bool :=
  let ip := s.takeWhile isDigit
  match s.dropWhile isDigit with
  | c :: fp =>
    if c = '.' ∧ ip ≠ [] ∧ fp ≠ [] ∧ fp.all isDigit then
      let x := roundNE false (digitsVal ip * 10 ^ fp.length + digitsVal fp) (10 ^ fp.length)
      (x, decide (x = .inf false))
    else (F64.zero, true)
  | [] => (F64.zero, true)

/-- Go `strconv.Atoi` on an unsigned digit string: the value, or the largest
`int` together with a range error when the value does not fit. -/
def Atoi (s : Str) : Int × Bool :=
  if s ≠ [] ∧ s.all isDigit then
    if digitsVal s < 2 ^ 63 then ((digitsVal s : Int), false) else ((2 : Int) ^ 63 - 1, true)
  else (0, true)

/-! ## regexp -/

/-- Regexp class `\w`. -/
def isWord (c : Char) : Bool :=
  isDigit c || (97 ≤ c.toNat && c.toNat ≤ 122) || (65 ≤ c.toNat && c.toNat ≤ 90) || c = '_'

/-- Regexp class `\s`: tab, newline, form feed, carriage return, space. -/
def isReSpace (c : Char) : Bool :=
  c.toNat = 9 || c.toNat = 10 || c.toNat = 12 || c.toNat = 13 || c.toNat = 32

/-- Regexp class `[\d-T:.Z]`. -/
def isTimeChar (c : Char) : Bool :=
  isDigit c || c = '-' || c = 'T' || c = ':' || c = '.' || c = 'Z'

/-- Match a literal at the start of `s`; the rest of `s`. -/
def lit (p : Str) (s : Str) : Option Str :=
  if p.isPrefixOf s then some (s.drop p.length) else none

/-- Greedy `c+` for a character class: the longest run and the rest. In
every pattern of `parse.go` the element after a `c+` or `c*` is either the
end of the pattern or an element disjoint from the class, so a shorter run can never
lead to a match and the longest run is the one the regexp engine reports. -/
def many1 (p : Char → Bool) (s : Str) : Option (Str × Str) :=
  if s.takeWhile p = [] then none else some (s.takeWhile p, s.dropWhile p)

/-- The repetition `c{n}` for a character class: the `n` characters and the rest. -/
def exactly (n : Nat) (p : Char → Bool) (s : Str) : Option (Str × Str) :=
  if n ≤ s.length ∧ (s.take n).all p then some (s.take n, s.drop n) else none

/-- Leftmost match: try the pattern at every start position, left to right. -/
def findFirst {α : Type} (m : Str → Option α) : Str → Option α
  | [] => m []
  | c :: cs =>
    match m (c :: cs) with
    | some r => some r
    | none => findFirst m cs

/-- The tail `:\d{2}:\d{2}` of the legacy pattern after an hour `h`. -/
def reTime56Tail (h : Str) (s : Str) : Option Str :=
  (lit ":".toList s).bind fun s1 =>
  (exactly 2 isDigit s1).bind fun mi =>
  (lit ":".toList mi.2).bind fun s2 =>
  (exactly 2 isDigit s2).bind fun se =>
  some (h ++ ":".toList ++ mi.1 ++ ":".toList ++ se.1)

/-- The group `(\d{1,2}:\d{2}:\d{2})`: two hour digits are preferred, one is
the fallback. -/
def reTime56Clock (s : Str) : Option Str :=
  match (exactly 2 isDigit s).bind fun h => reTime56Tail h.1 h.2 with
  | some r => some r
  | none => (exactly 1 isDigit s).bind fun h => reTime56Tail h.1 h.2

/-- The pattern `Time: (\d{6})  ?(\d{1,2}:\d{2}:\d{2})` at the start of `s`:
the second blank is taken when that leads to a match, skipped otherwise. -/
def reTime56At (s : Str) : Option (Str × Str) :=
  (lit "Time: ".toList s).bind fun s1 =>
  (exactly 6 isDigit s1).bind fun d =>
  (lit " ".toList d.2).bind fun s2 =>
  match (lit " ".toList s2).bind reTime56Clock with
  | some t => some (d.1, t)
  | none => (reTime56Clock s2).map fun t => (d.1, t)

/-- Submatches of `reTime56.FindStringSubmatch(line)`; `none` when there is no match. -/
def reTime56 (line : Str) : Option (Str × Str) := findFirst reTime56At line

/-- Submatch of `reTime.FindStringSubmatch(line)`, pattern `Time: ([\d-T:.Z]+)`. -/
def reTime (line : Str) : Option Str :=
  findFirst (fun s => (lit "Time: ".toList s).bind fun s1 =>
    (many1 isTimeChar s1).map fun r => r.1) line

/-- Submatch of `reUser.FindStringSubmatch(line)`, pattern `User@Host: (\w+)\[`. -/
def reUser (line : Str) : Option Str :=
  findFirst (fun s => (lit "User@Host: ".toList s).bind fun s1 =>
    (many1 isWord s1).bind fun r => (lit "[".toList r.2).map fun _ => r.1) line

/-- Submatch of `reConnectionID.FindStringSubmatch(line)`, pattern `Id:\s*(\d+)`. -/
def reConnectionID (line : Str) : Option Str :=
  findFirst (fun s => (lit "Id:".toList s).bind fun s1 =>
    (many1 isDigit (s1.dropWhile isReSpace)).map fun r => r.1) line

/-- The pattern `Query_time: (\d+\.\d+)` at the start of `s`. -/
def reQueryTimeAt (s : Str) : Option Str :=
  (lit "Query_time: ".toList s).bind fun s1 =>
  (many1 isDigit s1).bind fun ip =>
  (lit ".".toList ip.2).bind fun s2 =>
  (many1 isDigit s2).map fun fp => ip.1 ++ ".".toList ++ fp.1

/-- Submatch of the query-time pattern of `processQueryTimeAndRowsSent`. -/
def reQueryTime (line : Str) : Option Str := findFirst reQueryTimeAt line

/-- The pattern `Rows_sent: (\d+)` at the start of `s`. -/
def reRowsAt (s : Str) : Option Str :=
  (lit "Rows_sent: ".toList s).bind fun s1 => (many1 isDigit s1).map fun r => r.1

/-- Submatch of the rows-sent pattern of `processQueryTimeAndRowsSent`. -/
def reRows (line : Str) : Option Str := findFirst reRowsAt line

/-! ## time -/

/-- A Go `time.Time`, as Unix seconds and nanoseconds within the second. -/
structure Time where
  sec : Int
  nsec : Nat
deriving DecidableEq, Repr

/-- The zero `time.Time{}`: January 1, year 1, 00:00:00 UTC. -/
def Time.zero : Time := ⟨-62135596800, 0⟩

/-- Reduction of an integer to the `int64` range (two's complement wrap-around). -/
def wrapInt64 (n : Int) : Int := (n + 2 ^ 63) % 2 ^ 64 - 2 ^ 63

/-- Go `Time.UnixNano`, computed in `int64` arithmetic. -/
def Time.UnixNano (t : Time) : Int := wrapInt64 (t.sec * 1000000000 + (t.nsec : Int))

/-- The layout string of the MySQL 5.6 branch. -/
def layout56 : Str := "060102 15:04:05".toList

/-- Go `time.RFC3339Nano`. -/
def RFC3339Nano : Str := "2006-01-02T15:04:05.999999999Z07:00".toList

/-- The expression `float64(parsedTime.UnixNano()) / 1e9`. -/
def unixSeconds (t : Time) : F64 := (F64.ofInt t.UnixNano).divNat 1000000000

/-! ## Data model and external collaborators -/

/-- Modelled from the spec: the struct `LogEntry` is declared outside
`parse.go`; its fields are the ones `parse.go` assigns, with the types of the
values assigned to them (`timestamp`, `username`, `connection_id`,
`query_time_micros`, `rows_sent`, `sql`, `sql_type`, `digest` in the spec). -/
structure LogEntry where
  Timestamp : F64
  Username : Str
  ConnectionID : Str
  QueryTime : Int
  RowsSent : Int
  SQL : Str
  SQLType : Str
  Digest : Str
deriving DecidableEq, Repr

/-- The Go zero value `LogEntry{}`. -/
def LogEntry.empty : LogEntry := ⟨F64.zero, [], [], 0, 0, [], [], []⟩

/-- What `parse.go` takes from outside the repository: the TiDB
`parser.Normalize`, `parser.DigestNormalized(·).String()`, `time.Parse`
(`none` stands for a returned error) and the implementation-dependent value
of `int64(x)` for a float outside the `int64` range. -/
structure Deps where
  Normalize : Str → Str
  DigestNormalized : Str → Str
  timeParse : Str → Str → Option Time
  int64OutOfRange : F64 → Int

/-! ## parse.go -/

/-- Go `processQueryTimeAndRowsSent(line, entry)`. -/
def processQueryTimeAndRowsSent (D : Deps) (line : Str) (entry : LogEntry) : LogEntry :=
  let entry1 :=
    match reQueryTime line with
    | some g =>
      let queryTime := (ParseFloat g).1
      { entry with QueryTime := F64.toInt64 D.int64OutOfRange (queryTime.mulNat 1000000) }
    | none => entry
  match reRows line with
  | some g => { entry1 with RowsSent := (Atoi g).1 }
  | none => entry1

/-- The record that `finalizeEntry` serialises when the trimmed SQL is not
empty: the entry with `SQL`, `Digest` and `SQLType` filled in. -/
def finalRecord (D : Deps) (entry : LogEntry) (sqlBuffer : Str) : LogEntry :=
  let normalizedSQL := D.Normalize (TrimSpace sqlBuffer)
  let words := Fields normalizedSQL
  { entry with
    SQL := TrimSpace sqlBuffer
    Digest := D.DigestNormalized normalizedSQL
    SQLType := match words with
      | w :: _ => w
      | [] => "other".toList }

/-- Go `finalizeEntry(entry, sqlBuffer, outputFile)`: the new values of
`*entry`, of the buffer and of the output. When the trimmed SQL is empty the
function returns right after the assignment to `entry.SQL`. -/
def finalizeEntry (D : Deps) (entry : LogEntry) (sqlBuffer : Str) (outputFile : List LogEntry) :
    LogEntry × Str × List LogEntry :=
  if TrimSpace sqlBuffer = [] then
    ({ entry with SQL := [] }, sqlBuffer, outputFile)
  else
    (LogEntry.empty, [], outputFile ++ [finalRecord D entry sqlBuffer])

/-- The local variables of `ParseLogs` and the output written so far. -/
structure ParserState where
  currentEntry : LogEntry
  sqlBuffer : Str
  entryStarted : Bool
  outputFile : List LogEntry
deriving DecidableEq, Repr

/-- The state of `ParseLogs` before the first line. -/
def ParserState.init : ParserState := ⟨LogEntry.empty, [], false, []⟩

/-- The call `finalizeEntry(&currentEntry, &sqlBuffer, outputFile)` on the state. -/
def ParserState.finalize (D : Deps) (s : ParserState) : ParserState :=
  let r := finalizeEntry D s.currentEntry s.sqlBuffer s.outputFile
  { s with currentEntry := r.1, sqlBuffer := r.2.1, outputFile := r.2.2 }

/-- The three prefixes of body lines that are not accumulated. -/
def isNoise (line : Str) : Bool :=
  HasPrefix line "SET timestamp=".toList || HasPrefix line "-- ".toList ||
    HasPrefix line "use ".toList

/-- The time extraction of a `# Time:` line (lines 60-78). -/
def setTimestamp (D : Deps) (line : Str) (entry : LogEntry) : LogEntry :=
  match reTime56 line with
  | some m =>
    match D.timeParse layout56 (m.1 ++ " ".toList ++ m.2) with
    | none => entry
    | some parsedTime => { entry with Timestamp := unixSeconds parsedTime }
  | none =>
    match reTime line with
    | some g =>
      let parsedTime := (D.timeParse RFC3339Nano g).getD Time.zero
      { entry with Timestamp := unixSeconds parsedTime }
    | none => entry

/-- One iteration of the scanning loop of `ParseLogs`. -/
def scanLine (D : Deps) (s : ParserState) (line : Str) : ParserState :=
  if HasPrefix line "# Time:".toList then
    let s1 := if s.entryStarted then s.finalize D else s
    { s1 with entryStarted := true, currentEntry := setTimestamp D line s1.currentEntry }
  else if s.entryStarted then
    if HasPrefix line "# User@Host:".toList then
      let e1 := match reUser line with
        | some g => { s.currentEntry with Username := g }
        | none => s.currentEntry
      let e2 := match reConnectionID line with
        | some g => { e1 with ConnectionID := g }
        | none => e1
      { s with currentEntry := e2 }
    else if HasPrefix line "# Query_time:".toList then
      { s with currentEntry := processQueryTimeAndRowsSent D line s.currentEntry }
    else if !HasPrefix line "#".toList then
      if !isNoise line then { s with sqlBuffer := s.sqlBuffer ++ (line ++ " ".toList) } else s
    else s
  else s

/-- The state after the scanning loop and the final `finalizeEntry`. -/
def finish (D : Deps) (s : ParserState) : ParserState :=
  if s.entryStarted then s.finalize D else s

/-- Go `ParseLogs`, from the lines of the input file to the records written
to the output file. -/
def ParseLogs (D : Deps) (lines : List Str) : List LogEntry :=
  (finish D (lines.foldl (scanLine D) ParserState.init)).outputFile

/-! ## A concrete instance of the collaborators, for evaluating examples -/

/-- Gregorian leap years. -/
def isLeap (y : Nat) : Bool := y % 4 = 0 && (y % 100 ≠ 0 || y % 400 = 0)

/-- Number of days of month `m` of year `y`. -/
def daysIn (m y : Nat) : Nat :=
  if m = 2 then (if isLeap y then 29 else 28)
  else if m = 4 ∨ m = 6 ∨ m = 9 ∨ m = 11 then 30 else 31

/-- Unix seconds of a civil date and time in UTC (year at least 1). -/
def civilToUnix (y mo d h mi se : Nat) : Int :=
  let y1 := y - 1
  let days : Int := (365 * y1 + y1 / 4 - y1 / 100 + y1 / 400 : Nat) - 719162 +
    (((List.range (mo - 1)).map fun i => daysIn (i + 1) y).sum : Nat) + ((d : Int) - 1)
  days * 86400 + (h * 3600 + mi * 60 + se : Nat)

/-- The range checks of `time.Parse` on the fields of a date and time. -/
def civilOk (y mo d h mi se : Nat) : Bool :=
  decide (1 ≤ mo) && decide (mo ≤ 12) && decide (1 ≤ d) && decide (d ≤ daysIn mo y) &&
    decide (h < 24) && decide (mi < 60) && decide (se < 60)

/-- A run of exactly `n` digits followed by the literal `sep`: the value of
the digits and the rest. -/
def numThen (n : Nat) (sep : Str) (s : Str) : Option (Nat × Str) :=
  (exactly n isDigit s).bind fun r => (lit sep r.2).map fun rest => (digitsVal r.1, rest)

/-- The fields `MM:SS` that end a clock time. -/
def minSec (s : Str) : Option ((Nat × Nat) × Str) :=
  (numThen 2 ":".toList s).bind fun mi =>
  (numThen 2 [] mi.2).map fun se => ((mi.1, se.1), se.2)

/-- The date `YYMMDD` and the blank of the legacy layout; years 69-99 are
19xx, years 00-68 are 20xx. -/
def date56 (s : Str) : Option ((Nat × Nat × Nat) × Str) :=
  (numThen 2 [] s).bind fun yy =>
  (numThen 2 [] yy.2).bind fun mo =>
  (numThen 2 " ".toList mo.2).map fun dd =>
    ((if 69 ≤ yy.1 then 1900 + yy.1 else 2000 + yy.1, mo.1, dd.1), dd.2)

/-- An hour of one or two digits followed by a colon. -/
def hour56 (s : Str) : Option (Nat × Str) :=
  (many1 isDigit (s.take 2)).bind fun hh =>
  (lit ":".toList (s.drop hh.1.length)).map fun rest => (digitsVal hh.1, rest)

/-- A model of `time.Parse("060102 15:04:05", v)`: two-digit year, month, day,
a blank, an hour of one or two digits, minutes and seconds, nothing after;
every field range-checked. -/
def parseLayout56 (v : Str) : Option Time :=
  (date56 v).bind fun d =>
  (hour56 d.2).bind fun h =>
  (minSec h.2).bind fun ms =>
  if ms.2 = [] ∧ civilOk d.1.1 d.1.2.1 d.1.2.2 h.1 ms.1.1 ms.1.2 then
    some ⟨civilToUnix d.1.1 d.1.2.1 d.1.2.2 h.1 ms.1.1 ms.1.2, 0⟩
  else none

/-- The date `YYYY-MM-DD` and the `T` of RFC 3339. -/
def dateRFC (s : Str) : Option ((Nat × Nat × Nat) × Str) :=
  (numThen 4 "-".toList s).bind fun yy =>
  (numThen 2 "-".toList yy.2).bind fun mo =>
  (numThen 2 "T".toList mo.2).map fun dd => ((yy.1, mo.1, dd.1), dd.2)

/-- An optional fraction of a second, in nanoseconds (digits after the ninth
are dropped). -/
def fracNanos (s : Str) : Option (Nat × Str) :=
  match lit ".".toList s with
  | some s1 => (many1 isDigit s1).map fun f =>
      (digitsVal ((f.1 ++ "000000000".toList).take 9), f.2)
  | none => some (0, s)

/-- A model of `time.Parse(time.RFC3339Nano, v)` on values of the shape
`YYYY-MM-DDTHH:MM:SS[.fraction]Z` (UTC): the fields are range-checked and the
fraction is read to nanoseconds. Values with a numeric zone offset are not
covered by this model and are reported as errors. -/
def parseRFC3339Z (v : Str) : Option Time :=
  (dateRFC v).bind fun d =>
  (numThen 2 ":".toList d.2).bind fun h =>
  (minSec h.2).bind fun ms =>
  (fracNanos ms.2).bind fun f =>
  if f.2 = "Z".toList ∧ 1 ≤ d.1.1 ∧ civilOk d.1.1 d.1.2.1 d.1.2.2 h.1 ms.1.1 ms.1.2 then
    some ⟨civilToUnix d.1.1 d.1.2.1 d.1.2.2 h.1 ms.1.1 ms.1.2, f.1⟩
  else none

/-- A concrete instance of the collaborators, used to evaluate the parser on
example inputs. `time.Parse` is the model above for the two layouts of
`parse.go`. The normaliser is a stand-in that lower-cases ASCII letters and the
digest a stand-in that returns its argument (the examples do not depend on
either); an out-of-range float converts to the smallest `int64`, as on amd64. -/
def sampleDeps : Deps where
  Normalize := fun s => s.map fun c =>
    if 65 ≤ c.toNat ∧ c.toNat ≤ 90 then Char.ofNat (c.toNat + 32) else c
  DigestNormalized := fun s => s
  timeParse := fun layout v =>
    if layout = layout56 then parseLayout56 v
    else if layout = RFC3339Nano then parseRFC3339Z v
    else none
  int64OutOfRange := fun _ => -(2 : Int) ^ 63

/-! ## The emitted SQL texts, as the specification describes them -/

/-- A body line in the specification's sense: it starts neither with `#` nor
with one of the three noise prefixes. -/
def isBodyLine (l : Str) : Bool :=
  !HasPrefix l "#".toList &&
    !(HasPrefix l "SET timestamp=".toList || HasPrefix l "-- ".toList ||
      HasPrefix l "use ".toList)

/-- The concatenation of `line + " "` over the body lines of a list of lines. -/
def bodyText : List Str → Str
  | [] => []
  | l :: rest => if isBodyLine l then (l ++ " ".toList) ++ bodyText rest else bodyText rest

/-- The lines before the first `# Time:` line, and the blocks after them: one
block per `# Time:` line, made of that line and the lines up to the next one. -/
def splitBlocks : List Str → List Str × List (List Str)
  | [] => ([], [])
  | l :: rest =>
    if HasPrefix l "# Time:".toList then ([], (l :: (splitBlocks rest).1) :: (splitBlocks rest).2)
    else (l :: (splitBlocks rest).1, (splitBlocks rest).2)

/-- The blocks of an input. -/
def specBlocks (lines : List Str) : List (List Str) := (splitBlocks lines).2

/-- The body of a block: its body text, trimmed. -/
def specBody (block : List Str) : Str := TrimSpace (bodyText block)

/-- The SQL texts the specification expects: the non-empty bodies, in block order. -/
def specSQLTexts (lines : List Str) : List Str :=
  ((specBlocks lines).map specBody).filter fun b => decide (b ≠ [])

/-- The reading of a query time in the specification's words: the integer
formed by shifting the decimal point of `ip.fp` six places to the right, for
a fraction `fp` of at most six digits. -/
def specMicros (ip fp : Str) : Int := (digitsVal (ip ++ (fp ++ "000000".toList).take 6) : Int)

/-- The text starts with `Rows_sent: ` followed by a digit: a place of a line
where `Rows_sent: ` is followed by digits. -/
def rowsHere (s : Str) : Bool :=
  HasPrefix s "Rows_sent: ".toList &&
    decide ((s.drop "Rows_sent: ".toList.length).takeWhile isDigit ≠ [])

/-- The text starts with `Query_time: ` followed by digits, a point and a
digit: a place of a line where `Query_time: ` is followed by a decimal number
of the form digits.digits. -/
def queryTimeHere (s : Str) : Bool :=
  HasPrefix s "Query_time: ".toList &&
    (decide ((s.drop "Query_time: ".toList.length).takeWhile isDigit ≠ []) &&
      match (s.drop "Query_time: ".toList.length).dropWhile isDigit with
      | c :: r => decide (c = '.') && decide (r.takeWhile isDigit ≠ [])
      | [] => false)

/-! ## Lemmas on `TrimSpace` -/

theorem trimSpace_eq_nil_iff (s : Str) : TrimSpace s = [] ↔ ∀ c ∈ s, isSpace c = true := by
  unfold TrimSpace
  rw [List.rdropWhile_eq_nil_iff]
  constructor
  · intro h
    have hnil : s.dropWhile isSpace = [] := by
      cases hd : s.dropWhile isSpace with
      | nil => rfl
      | cons a t =>
        have h1 : isSpace a = true := h a (by rw [hd]; exact List.mem_cons_self a t)
        have h2 := List.head_dropWhile_not isSpace s (by rw [hd]; exact List.cons_ne_nil a t)
        simp only [hd, List.head_cons] at h2
        rw [h1] at h2
        exact absurd h2 (by decide)
    exact List.dropWhile_eq_nil_iff.mp hnil
  · intro h c hc
    exact h c ((List.dropWhile_sublist isSpace).subset hc)

theorem dropWhile_append_of_all (p : Char → Bool) (w x : Str) (hw : ∀ c ∈ w, p c = true) :
    (w ++ x).dropWhile p = x.dropWhile p := by
  induction w with
  | nil => rfl
  | cons a t ih =>
    have ha : p a = true := hw a (List.mem_cons_self a t)
    rw [List.cons_append, List.dropWhile_cons_of_pos ha]
    exact ih fun c hc => hw c (List.mem_cons_of_mem a hc)

theorem trimSpace_append_of_blank (w x : Str) (hw : TrimSpace w = []) :
    TrimSpace (w ++ x) = TrimSpace x := by
  unfold TrimSpace
  rw [dropWhile_append_of_all isSpace w x ((trimSpace_eq_nil_iff w).mp hw)]

/-! ## Lemmas on the scanning loop -/

theorem finalizeEntry_output (D : Deps) (entry : LogEntry) (buf : Str) (out : List LogEntry) :
    (finalizeEntry D entry buf out).2.2 =
      if TrimSpace buf = [] then out else out ++ [finalRecord D entry buf] := by
  unfold finalizeEntry
  split <;> rfl

theorem finalize_output (D : Deps) (s : ParserState) :
    (s.finalize D).outputFile =
      if TrimSpace s.sqlBuffer = [] then s.outputFile
      else s.outputFile ++ [finalRecord D s.currentEntry s.sqlBuffer] := by
  simp only [ParserState.finalize, finalizeEntry_output]

theorem finalize_entryStarted (D : Deps) (s : ParserState) :
    (s.finalize D).entryStarted = s.entryStarted := rfl

theorem scanLine_output (D : Deps) (s : ParserState) (line : Str) :
    (scanLine D s line).outputFile = s.outputFile ∨
      (TrimSpace s.sqlBuffer ≠ [] ∧
        (scanLine D s line).outputFile =
          s.outputFile ++ [finalRecord D s.currentEntry s.sqlBuffer]) := by
  unfold scanLine
  split
  · by_cases hs : s.entryStarted = true
    · simp only [hs, if_true, finalize_output]
      by_cases hb : TrimSpace s.sqlBuffer = []
      · left; simp [hb]
      · right; exact ⟨hb, by simp [hb]⟩
    · left; simp [hs]
  · left
    split
    · split
      · rfl
      · split
        · rfl
        · split
          · split <;> rfl
          · rfl
    · rfl

/-- Every record written by the loop and the final call is a `finalRecord` of
a buffer whose trimmed text is not empty. -/
theorem records_of_run (D : Deps) (P : LogEntry → Prop)
    (hP : ∀ entry buf, TrimSpace buf ≠ [] → P (finalRecord D entry buf)) :
    ∀ (lines : List Str) (s : ParserState), (∀ r ∈ s.outputFile, P r) →
      ∀ r ∈ (finish D (lines.foldl (scanLine D) s)).outputFile, P r := by
  intro lines
  induction lines with
  | nil =>
    intro s hs r hr
    simp only [List.foldl_nil, finish] at hr
    split at hr
    · rw [finalize_output] at hr
      split at hr
      · exact hs r hr
      · rename_i hb
        rcases List.mem_append.mp hr with h | h
        · exact hs r h
        · rw [List.mem_singleton.mp h]; exact hP _ _ hb
    · exact hs r hr
  | cons l ls ih =>
    intro s hs
    rw [List.foldl_cons]
    apply ih
    intro r hr
    rcases scanLine_output D s l with h | ⟨hb, h⟩
    · rw [h] at hr; exact hs r hr
    · rw [h] at hr
      rcases List.mem_append.mp hr with h1 | h1
      · exact hs r h1
      · rw [List.mem_singleton.mp h1]; exact hP _ _ hb

theorem records_of_ParseLogs (D : Deps) (P : LogEntry → Prop)
    (hP : ∀ entry buf, TrimSpace buf ≠ [] → P (finalRecord D entry buf))
    (lines : List Str) : ∀ r ∈ ParseLogs D lines, P r :=
  records_of_run D P hP lines ParserState.init (by intro r hr; cases hr)

theorem noise_not_marker (x : Str) (h : isNoise x = true) :
    HasPrefix x "#".toList = false := by
  cases x with
  | nil => simp [isNoise, HasPrefix] at h
  | cons c t =>
    simp only [isNoise, HasPrefix, String.toList, List.isPrefixOf, Bool.or_eq_true,
      Bool.and_eq_true, beq_iff_eq] at h
    simp only [HasPrefix, String.toList, List.isPrefixOf, List.isPrefixOf_nil_left,
      Bool.and_true, beq_eq_false_iff_ne, ne_eq]
    rcases h with (h | h) | h <;> (rw [← h.1]; decide)

theorem hasPrefix_of_marker_false (x p : Str) (h : HasPrefix x "#".toList = false) :
    HasPrefix x ('#' :: p) = false := by
  cases x with
  | nil => rfl
  | cons c t =>
    simp only [HasPrefix, String.toList, List.isPrefixOf, List.isPrefixOf_nil_left,
      Bool.and_true, beq_eq_false_iff_ne, ne_eq] at h
    simp [HasPrefix, List.isPrefixOf, h]

theorem scanLine_noise (D : Deps) (s : ParserState) (x : Str) (h : isNoise x = true) :
    scanLine D s x = s := by
  have h0 := noise_not_marker x h
  have h1 : HasPrefix x "# Time:".toList = false := hasPrefix_of_marker_false x _ h0
  have h2 : HasPrefix x "# User@Host:".toList = false := hasPrefix_of_marker_false x _ h0
  have h3 : HasPrefix x "# Query_time:".toList = false := hasPrefix_of_marker_false x _ h0
  unfold scanLine
  simp only [h0, h1, h2, h3, h, Bool.false_eq_true, if_false, Bool.not_false, Bool.not_true,
    if_true, ite_self]

theorem fieldsAux_eq_nil_iff (s cur : Str) :
    fieldsAux s cur = [] ↔ cur = [] ∧ ∀ c ∈ s, isSpace c = true := by
  induction s generalizing cur with
  | nil => simp [fieldsAux]
  | cons a t ih =>
    unfold fieldsAux
    by_cases ha : isSpace a = true
    · by_cases hc : cur = []
      · simp [ha, hc, ih]
      · simp [ha, hc]
    · simp [ha, ih]

theorem fields_eq_nil_iff (s : Str) : Fields s = [] ↔ ∀ c ∈ s, isSpace c = true := by
  simp [Fields, fieldsAux_eq_nil_iff]

theorem hasPrefix_marker_of_longer (x p : Str) (h : HasPrefix x ('#' :: p) = true) :
    HasPrefix x "#".toList = true := by
  cases x with
  | nil => simp [HasPrefix, List.isPrefixOf] at h
  | cons c t =>
    simp only [HasPrefix, List.isPrefixOf, Bool.and_eq_true, beq_iff_eq] at h
    obtain ⟨hc, _⟩ := h
    subst hc
    simp [HasPrefix, List.isPrefixOf]

theorem isBodyLine_of_marker (x p : Str) (h : HasPrefix x ('#' :: p) = true) :
    isBodyLine x = false := by
  simp only [isBodyLine, hasPrefix_marker_of_longer x p h, Bool.not_true, Bool.false_and]

theorem isBodyLine_eq (x : Str) :
    isBodyLine x = (!HasPrefix x "#".toList && !isNoise x) := rfl

/-- A line that is not a boundary, read while an entry is open, only extends
the accumulator (by the line and a blank, when it is a body line). -/
theorem scanLine_body (D : Deps) (s : ParserState) (l : Str)
    (hl : HasPrefix l "# Time:".toList = false) (hs : s.entryStarted = true) :
    (scanLine D s l).outputFile = s.outputFile ∧ (scanLine D s l).entryStarted = true ∧
      (scanLine D s l).sqlBuffer =
        s.sqlBuffer ++ (if isBodyLine l then l ++ " ".toList else []) := by
  unfold scanLine
  simp only [hl, hs, Bool.false_eq_true, if_false, if_true]
  by_cases h1 : HasPrefix l "# User@Host:".toList = true
  · simp only [h1, if_true, isBodyLine_of_marker l _ h1, hs, Bool.false_eq_true, if_false,
      List.append_nil, and_self]
  · by_cases h2 : HasPrefix l "# Query_time:".toList = true
    · simp only [h1, h2, if_true, isBodyLine_of_marker l _ h2, hs, Bool.false_eq_true, if_false,
        List.append_nil, and_self]
    · cases h3 : HasPrefix l "#".toList <;> cases h4 : isNoise l <;>
        simp only [h1, h2, isBodyLine_eq, h3, h4, hs, Bool.false_eq_true, if_false, if_true,
          Bool.not_false, Bool.not_true, Bool.and_true, Bool.and_false, Bool.and_self,
          List.append_nil, and_self]

/-- A line read before the first boundary changes nothing. -/
theorem scanLine_idle (D : Deps) (s : ParserState) (l : Str)
    (hl : HasPrefix l "# Time:".toList = false) (hs : s.entryStarted = false) :
    scanLine D s l = s := by
  unfold scanLine
  simp only [hl, hs, Bool.false_eq_true, if_false]

/-- A boundary line finalises the open entry; what stays in the accumulator is blank. -/
theorem scanLine_boundary (D : Deps) (s : ParserState) (l : Str)
    (hl : HasPrefix l "# Time:".toList = true) (hs : s.entryStarted = true) :
    (scanLine D s l).outputFile.map (fun r => r.SQL) =
        s.outputFile.map (fun r => r.SQL) ++
          [TrimSpace s.sqlBuffer].filter (fun b => decide (b ≠ [])) ∧
      (scanLine D s l).entryStarted = true ∧ TrimSpace (scanLine D s l).sqlBuffer = [] := by
  unfold scanLine
  simp only [hl, hs, if_true, ParserState.finalize, finalizeEntry]
  by_cases hb : TrimSpace s.sqlBuffer = []
  · simp [hb]
  · have ht : TrimSpace ([] : Str) = [] := rfl
    simp [hb, finalRecord, ht]

/-- The SQL texts written from a state in which an entry is open: the texts
already written, the text of the open entry, and the bodies of the blocks
still to come. -/
theorem run_sql_open (D : Deps) : ∀ (lines : List Str) (s : ParserState),
    s.entryStarted = true →
    (finish D (lines.foldl (scanLine D) s)).outputFile.map (fun r => r.SQL) =
      s.outputFile.map (fun r => r.SQL) ++
        ((TrimSpace (s.sqlBuffer ++ bodyText (splitBlocks lines).1) ::
          (splitBlocks lines).2.map specBody).filter fun b => decide (b ≠ [])) := by
  intro lines
  induction lines with
  | nil =>
    intro s hs
    simp only [List.foldl_nil, finish, hs, if_true, finalize_output, splitBlocks, bodyText,
      List.append_nil, List.map_nil]
    by_cases hb : TrimSpace s.sqlBuffer = []
    · simp [hb]
    · simp [hb, finalRecord]
  | cons l ls ih =>
    intro s hs
    rw [List.foldl_cons]
    by_cases hl : HasPrefix l "# Time:".toList = true
    · obtain ⟨h1, h2, h3⟩ := scanLine_boundary D s l hl hs
      rw [ih _ h2, h1, trimSpace_append_of_blank _ _ h3]
      have hbody : isBodyLine l = false := isBodyLine_of_marker l _ hl
      simp only [splitBlocks, hl, if_true, bodyText, List.append_nil, List.map_cons, specBody,
        hbody, Bool.false_eq_true, if_false, List.append_assoc]
      by_cases hb : TrimSpace s.sqlBuffer = [] <;> simp [hb, List.filter_cons]
    · have hl2 : HasPrefix l "# Time:".toList = false := by simpa using hl
      obtain ⟨h1, h2, h3⟩ := scanLine_body D s l hl2 hs
      rw [ih _ h2, h1, h3]
      simp only [splitBlocks, hl2, Bool.false_eq_true, if_false, bodyText]
      by_cases hb : isBodyLine l = true <;> simp [hb]

/-- The SQL texts written from a state in which no entry is open yet. -/
theorem run_sql_idle (D : Deps) : ∀ (lines : List Str) (s : ParserState),
    s.entryStarted = false → s.sqlBuffer = [] →
    (finish D (lines.foldl (scanLine D) s)).outputFile.map (fun r => r.SQL) =
      s.outputFile.map (fun r => r.SQL) ++
        (((splitBlocks lines).2.map specBody).filter fun b => decide (b ≠ [])) := by
  intro lines
  induction lines with
  | nil =>
    intro s hs _
    simp [finish, hs, splitBlocks]
  | cons l ls ih =>
    intro s hs hbuf
    rw [List.foldl_cons]
    by_cases hl : HasPrefix l "# Time:".toList = true
    · have h2 : (scanLine D s l).entryStarted = true := by
        unfold scanLine; simp only [hl, if_true]
      have h1 : (scanLine D s l).outputFile = s.outputFile := by
        unfold scanLine; simp only [hl, hs, if_true, Bool.false_eq_true, if_false]
      have h3 : (scanLine D s l).sqlBuffer = [] := by
        unfold scanLine; simp only [hl, hs, if_true, Bool.false_eq_true, if_false, hbuf]
      rw [run_sql_open D ls _ h2, h1, h3]
      have hbody : isBodyLine l = false := isBodyLine_of_marker l _ hl
      simp only [splitBlocks, hl, if_true, bodyText, List.nil_append, List.map_cons, specBody,
        hbody, Bool.false_eq_true, if_false]
    · have hl2 : HasPrefix l "# Time:".toList = false := by simpa using hl
      rw [scanLine_idle D s l hl2 hs, ih s hs hbuf]
      simp only [splitBlocks, hl2, Bool.false_eq_true, if_false]

/-! ## Lemmas on the patterns and the conversions -/

theorem lit_append (p s : Str) : lit p (p ++ s) = some s := by
  unfold lit
  have h : p.isPrefixOf (p ++ s) = true :=
    List.isPrefixOf_iff_prefix.mpr (List.prefix_append p s)
  simp [h]

theorem lit_cons_ne (a b : Char) (p t : Str) (h : b ≠ a) : lit (a :: p) (b :: t) = none := by
  have h1 : (a == b) = false := by
    rw [beq_eq_false_iff_ne]; exact fun e => h e.symm
  simp [lit, List.isPrefixOf, h1]

theorem takeWhile_stop (p : Char → Bool) (rest : Str) (h : ∀ c ∈ rest.head?, p c = false) :
    rest.takeWhile p = [] ∧ rest.dropWhile p = rest := by
  cases rest with
  | nil => exact ⟨rfl, rfl⟩
  | cons a t =>
    have ha : p a = false := h a (by simp)
    simp [List.takeWhile_cons, List.dropWhile_cons, ha]

theorem many1_run (p : Char → Bool) (ds rest : Str) (hne : ds ≠ [])
    (hd : ∀ c ∈ ds, p c = true) (hr : ∀ c ∈ rest.head?, p c = false) :
    many1 p (ds ++ rest) = some (ds, rest) := by
  unfold many1
  rw [List.takeWhile_append_of_pos hd, List.dropWhile_append_of_pos hd,
    (takeWhile_stop p rest hr).1, (takeWhile_stop p rest hr).2]
  simp [hne]

theorem findFirst_of_some {α : Type} (m : Str → Option α) (s : Str) (r : α)
    (h : m s = some r) : findFirst m s = some r := by
  cases s with
  | nil => simpa [findFirst] using h
  | cons c t => simp [findFirst, h]

/-- The leftmost match starts after `pre` when the pattern matches at no
position inside `pre`. -/
theorem findFirst_skip_until {α : Type} (m : Str → Option α) (pre tail : Str)
    (h : ∀ k, k < pre.length → m ((pre ++ tail).drop k) = none) :
    findFirst m (pre ++ tail) = findFirst m tail := by
  induction pre with
  | nil => rfl
  | cons a t ih =>
    have h0 : m (a :: (t ++ tail)) = none := h 0 (Nat.succ_pos _)
    have hstep : findFirst m (a :: (t ++ tail)) = findFirst m (t ++ tail) := by
      rw [findFirst, h0]
    rw [List.cons_append, hstep]
    apply ih
    intro k hk
    exact h (k + 1) (Nat.succ_lt_succ hk)

theorem head_of_takeWhile_nil (p : Char → Bool) (rest : Str) (h : rest.takeWhile p = []) :
    ∀ c ∈ rest.head?, p c = false := by
  cases rest with
  | nil => intro c hc; simp at hc
  | cons a t =>
    intro c hc
    simp only [List.head?_cons, Option.mem_def, Option.some.injEq] at hc
    subst hc
    cases hp : p a with
    | false => rfl
    | true => simp [List.takeWhile_cons, hp] at h

theorem lit_none (p s : Str) (h : p.isPrefixOf s = false) : lit p s = none := by
  unfold lit
  simp only [h, Bool.false_eq_true, if_false]

theorem lit_some (p s : Str) (h : p.isPrefixOf s = true) : lit p s = some (s.drop p.length) := by
  unfold lit
  simp only [h, if_true]

theorem many1_none (p : Char → Bool) (s : Str) (h : s.takeWhile p = []) : many1 p s = none := by
  unfold many1
  simp only [h, if_true]

theorem many1_some (p : Char → Bool) (s : Str) (h : s.takeWhile p ≠ []) :
    many1 p s = some (s.takeWhile p, s.dropWhile p) := by
  unfold many1
  simp only [h, if_false]

theorem reRowsAt_none (s : Str) (h : rowsHere s = false) : reRowsAt s = none := by
  unfold rowsHere HasPrefix at h
  unfold reRowsAt
  cases hp : List.isPrefixOf "Rows_sent: ".toList s with
  | false => rw [lit_none _ _ hp]; rfl
  | true =>
    rw [hp] at h
    simp only [Bool.true_and, decide_eq_false_iff_not, ne_eq, not_not] at h
    rw [lit_some _ _ hp]
    simp only [Option.bind, many1_none isDigit _ h, Option.map]

theorem reQueryTimeAt_none (s : Str) (h : queryTimeHere s = false) : reQueryTimeAt s = none := by
  unfold queryTimeHere HasPrefix at h
  unfold reQueryTimeAt
  cases hp : List.isPrefixOf "Query_time: ".toList s with
  | false => rw [lit_none _ _ hp]; rfl
  | true =>
    rw [hp] at h
    simp only [Bool.true_and] at h
    rw [lit_some _ _ hp]
    by_cases h1 : (s.drop "Query_time: ".toList.length).takeWhile isDigit = []
    · simp only [Option.bind, many1_none isDigit _ h1]
    · simp only [Option.bind, many1_some isDigit _ h1]
      cases hd : (s.drop "Query_time: ".toList.length).dropWhile isDigit with
      | nil => rfl
      | cons c r =>
        rw [hd] at h
        by_cases hc : c = '.'
        · subst hc
          have h2 : r.takeWhile isDigit = [] := by
            by_contra hcon
            change (decide ((s.drop "Query_time: ".toList.length).takeWhile isDigit ≠ []) &&
              (decide ('.' = '.') && decide (r.takeWhile isDigit ≠ []))) = false at h
            rw [decide_eq_true h1, decide_eq_true hcon, decide_eq_true rfl] at h
            exact absurd h (by decide)
          have hl : lit ".".toList ('.' :: r) = some r := lit_append ".".toList r
          simp only [hl, many1_none isDigit r h2, Option.map]
        · have hl : lit ".".toList (c :: r) = none := lit_cons_ne '.' c [] r hc
          simp only [hl]

theorem reRowsAt_shape (ds rest : Str) (hds : ds ≠ []) (hdsd : ∀ c ∈ ds, isDigit c = true)
    (hrest : ∀ c ∈ rest.head?, isDigit c = false) :
    reRowsAt ("Rows_sent: ".toList ++ (ds ++ rest)) = some ds := by
  unfold reRowsAt
  simp only [lit_append, Option.bind, many1_run isDigit ds rest hds hdsd hrest, Option.map]

theorem reQueryTimeAt_shape (ip fp rest : Str)
    (hip : ip ≠ []) (hipd : ∀ c ∈ ip, isDigit c = true)
    (hfp : fp ≠ []) (hfpd : ∀ c ∈ fp, isDigit c = true)
    (hrest : ∀ c ∈ rest.head?, isDigit c = false) :
    reQueryTimeAt ("Query_time: ".toList ++ (ip ++ (".".toList ++ (fp ++ rest)))) =
      some (ip ++ ".".toList ++ fp) := by
  unfold reQueryTimeAt
  have hdot : ∀ c ∈ (".".toList ++ (fp ++ rest)).head?, isDigit c = false := by
    intro c hc
    simp only [String.toList, List.cons_append, List.head?_cons, Option.mem_def,
      Option.some.injEq] at hc
    rw [← hc]; decide
  simp only [lit_append, Option.bind, many1_run isDigit ip _ hip hipd hdot,
    many1_run isDigit fp rest hfp hfpd hrest, Option.map, List.append_assoc]

/-- The rows pattern captures the digits after the first place where
`Rows_sent: ` is followed by a digit. -/
theorem reRows_first (pre ds rest : Str)
    (hfirst : ∀ k, k < pre.length →
      rowsHere ((pre ++ ("Rows_sent: ".toList ++ (ds ++ rest))).drop k) = false)
    (hds : ds ≠ []) (hdsd : ∀ c ∈ ds, isDigit c = true)
    (hrest : ∀ c ∈ rest.head?, isDigit c = false) :
    reRows (pre ++ ("Rows_sent: ".toList ++ (ds ++ rest))) = some ds := by
  unfold reRows
  rw [findFirst_skip_until reRowsAt pre _ fun k hk => reRowsAt_none _ (hfirst k hk)]
  exact findFirst_of_some _ _ _ (reRowsAt_shape ds rest hds hdsd hrest)

/-- The query-time pattern captures the decimal after the first place where
`Query_time: ` is followed by digits, a point and a digit. -/
theorem reQueryTime_first (pre ip fp rest : Str)
    (hfirst : ∀ k, k < pre.length →
      queryTimeHere ((pre ++ ("Query_time: ".toList ++ (ip ++ (".".toList ++ (fp ++ rest))))).drop k) =
        false)
    (hip : ip ≠ []) (hipd : ∀ c ∈ ip, isDigit c = true)
    (hfp : fp ≠ []) (hfpd : ∀ c ∈ fp, isDigit c = true)
    (hrest : ∀ c ∈ rest.head?, isDigit c = false) :
    reQueryTime (pre ++ ("Query_time: ".toList ++ (ip ++ (".".toList ++ (fp ++ rest))))) =
      some (ip ++ ".".toList ++ fp) := by
  unfold reQueryTime
  rw [findFirst_skip_until reQueryTimeAt pre _ fun k hk => reQueryTimeAt_none _ (hfirst k hk)]
  exact findFirst_of_some _ _ _ (reQueryTimeAt_shape ip fp rest hip hipd hfp hfpd hrest)

theorem ParseFloat_decimal (ip fp : Str) (hip : ip ≠ []) (hipd : ∀ c ∈ ip, isDigit c = true)
    (hfp : fp ≠ []) (hfpd : ∀ c ∈ fp, isDigit c = true) :
    (ParseFloat (ip ++ ".".toList ++ fp)).1 =
      roundNE false (digitsVal ip * 10 ^ fp.length + digitsVal fp) (10 ^ fp.length) := by
  have hdot : ∀ c ∈ (".".toList ++ fp).head?, isDigit c = false := by
    intro c hc
    simp only [String.toList, List.cons_append, List.head?_cons, Option.mem_def,
      Option.some.injEq] at hc
    rw [← hc]; decide
  have hall : fp.all isDigit = true := List.all_eq_true.mpr hfpd
  unfold ParseFloat
  simp only [List.append_assoc]
  rw [List.takeWhile_append_of_pos hipd, List.dropWhile_append_of_pos hipd,
    (takeWhile_stop isDigit _ hdot).1, (takeWhile_stop isDigit _ hdot).2]
  simp [hip, hfp, hall]

theorem Atoi_digits (ds : Str) (hds : ds ≠ []) (hdsd : ∀ c ∈ ds, isDigit c = true) :
    (Atoi ds).1 = if digitsVal ds < 2 ^ 63 then (digitsVal ds : Int) else 2 ^ 63 - 1 := by
  have hall : ds.all isDigit = true := List.all_eq_true.mpr hdsd
  unfold Atoi
  simp only [hds, hall, ne_eq, not_false_eq_true, and_self, if_true]
  split <;> rfl

theorem processQueryTime_rowsSent_frame (D : Deps) (line : Str) (entry : LogEntry) :
    (processQueryTimeAndRowsSent D line entry).QueryTime =
      (match reQueryTime line with
        | some g => F64.toInt64 D.int64OutOfRange ((ParseFloat g).1.mulNat 1000000)
        | none => entry.QueryTime) ∧
    (processQueryTimeAndRowsSent D line entry).RowsSent =
      (match reRows line with
        | some g => (Atoi g).1
        | none => entry.RowsSent) := by
  unfold processQueryTimeAndRowsSent
  cases reQueryTime line <;> cases reRows line <;> exact ⟨rfl, rfl⟩

theorem processQueryTime_other_fields (D : Deps) (line : Str) (entry : LogEntry) :
    (processQueryTimeAndRowsSent D line entry).Username = entry.Username ∧
    (processQueryTimeAndRowsSent D line entry).ConnectionID = entry.ConnectionID := by
  unfold processQueryTimeAndRowsSent
  cases reQueryTime line <;> cases reRows line <;> exact ⟨rfl, rfl⟩

theorem findFirst_some_exists {α : Type} (m : Str → Option α) (r : α) :
    ∀ s : Str, findFirst m s = some r → ∃ t, m t = some r := by
  intro s
  induction s with
  | nil => intro h; exact ⟨[], by simpa [findFirst] using h⟩
  | cons c cs ih =>
    intro h
    rw [findFirst] at h
    cases hm : m (c :: cs) with
    | some x =>
      rw [hm] at h
      exact ⟨c :: cs, by rw [hm]; exact h⟩
    | none =>
      rw [hm] at h
      exact ih h

theorem reRows_digits (line r : Str) (h : reRows line = some r) :
    r ≠ [] ∧ ∀ c ∈ r, isDigit c = true := by
  obtain ⟨t, ht⟩ := findFirst_some_exists reRowsAt r line h
  unfold reRowsAt at ht
  cases hl : lit "Rows_sent: ".toList t with
  | none => rw [hl] at ht; simp at ht
  | some s1 =>
    rw [hl] at ht
    simp only [Option.bind, many1] at ht
    by_cases hnil : s1.takeWhile isDigit = []
    · simp [hnil] at ht
    · simp only [hnil, if_false, Option.map, Option.some.injEq] at ht
      subst ht
      exact ⟨hnil, fun c hc => List.mem_takeWhile_imp hc⟩

theorem hasPrefix_third_ne (x p q : Str) (a b c d : Char) (h : HasPrefix x (a :: b :: c :: p) = true)
    (hcd : c ≠ d) : HasPrefix x (a :: b :: d :: q) = false := by
  match x, h with
  | x1 :: x2 :: x3 :: t, h =>
    simp only [HasPrefix, List.isPrefixOf, Bool.and_eq_true, beq_iff_eq] at h
    have h3 : (d == x3) = false := by
      rw [beq_eq_false_iff_ne, ← h.2.2.1]; exact fun e => hcd e.symm
    simp [HasPrefix, List.isPrefixOf, h3]
  | [], h => simp [HasPrefix, List.isPrefixOf] at h
  | [_], h => simp [HasPrefix, List.isPrefixOf] at h
  | [_, _], h => simp [HasPrefix, List.isPrefixOf] at h

theorem dropWhile_append_of_exists (p : Char → Bool) (x w : Str) (h : ∃ c ∈ x, p c = false) :
    (x ++ w).dropWhile p = x.dropWhile p ++ w := by
  induction x with
  | nil => obtain ⟨c, hc, _⟩ := h; cases hc
  | cons a t ih =>
    cases ha : p a with
    | false => simp [List.dropWhile_cons, ha]
    | true =>
      have ht : ∃ c ∈ t, p c = false := by
        obtain ⟨c, hc, hpc⟩ := h
        rcases List.mem_cons.mp hc with e | e
        · rw [e, ha] at hpc; cases hpc
        · exact ⟨c, e, hpc⟩
      simp only [List.cons_append, List.dropWhile_cons, ha, if_true]
      exact ih ht

theorem rdropWhile_append_of_all (p : Char → Bool) (y w : Str) (hw : ∀ c ∈ w, p c = true) :
    (y ++ w).rdropWhile p = y.rdropWhile p := by
  induction w using List.reverseRecOn with
  | nil => simp
  | append_singleton l a ih =>
    rw [← List.append_assoc, List.rdropWhile_concat_pos _ _ _ (hw a (by simp))]
    exact ih fun c hc => hw c (by simp [hc])

/-- White space appended to a text does not change its trimmed form. -/
theorem trimSpace_append_blank (x w : Str) (hw : ∀ c ∈ w, isSpace c = true) :
    TrimSpace (x ++ w) = TrimSpace x := by
  by_cases hx : ∀ c ∈ x, isSpace c = true
  · have h1 : TrimSpace (x ++ w) = [] := by
      rw [trimSpace_eq_nil_iff]
      intro c hc
      rcases List.mem_append.mp hc with h | h
      · exact hx c h
      · exact hw c h
    rw [h1, (trimSpace_eq_nil_iff x).mpr hx]
  · have hex : ∃ c ∈ x, isSpace c = false := by
      by_contra hcon
      apply hx
      intro c hc
      cases hsp : isSpace c with
      | true => rfl
      | false => exact absurd ⟨c, hc, hsp⟩ hcon
    unfold TrimSpace
    rw [dropWhile_append_of_exists isSpace x w hex, rdropWhile_append_of_all isSpace _ w hw]

/-! ## Lemmas on lines that leave the state alone and on the end of input -/

/-- A marker line other than the three recognised ones changes nothing. -/
theorem scanLine_other_marker (D : Deps) (s : ParserState) (x : Str)
    (h0 : HasPrefix x "#".toList = true) (h1 : HasPrefix x "# Time:".toList = false)
    (h2 : HasPrefix x "# User@Host:".toList = false)
    (h3 : HasPrefix x "# Query_time:".toList = false) : scanLine D s x = s := by
  unfold scanLine
  simp only [h0, h1, h2, h3, Bool.false_eq_true, if_false, Bool.not_true, ite_self]

/-- Before the first boundary line the loop does nothing. -/
theorem foldl_idle (D : Deps) : ∀ (lines : List Str) (s : ParserState),
    s.entryStarted = false → (∀ l ∈ lines, HasPrefix l "# Time:".toList = false) →
    lines.foldl (scanLine D) s = s := by
  intro lines
  induction lines with
  | nil => intro s _ _; rfl
  | cons l ls ih =>
    intro s hs hl
    rw [List.foldl_cons, scanLine_idle D s l (hl l (List.mem_cons_self l ls)) hs]
    exact ih s hs fun x hx => hl x (List.mem_cons_of_mem l hx)

/-- The lines before the first boundary line can be dropped. -/
theorem foldl_dropWhile_idle (D : Deps) : ∀ (lines : List Str) (s : ParserState),
    s.entryStarted = false →
    lines.foldl (scanLine D) s =
      (lines.dropWhile fun l => !HasPrefix l "# Time:".toList).foldl (scanLine D) s := by
  intro lines
  induction lines with
  | nil => intro s _; rfl
  | cons l ls ih =>
    intro s hs
    cases hl : HasPrefix l "# Time:".toList with
    | true => simp only [List.dropWhile_cons, hl, Bool.not_true, Bool.false_eq_true, if_false]
    | false =>
      simp only [List.dropWhile_cons, hl, Bool.not_false, if_true, List.foldl_cons,
        scanLine_idle D s l hl hs]
      exact ih s hs

/-- While no entry is open the accumulator is empty. -/
theorem idle_buffer_empty (D : Deps) : ∀ (lines : List Str) (s : ParserState),
    (s.entryStarted = false → s.sqlBuffer = []) →
    (lines.foldl (scanLine D) s).entryStarted = false →
      (lines.foldl (scanLine D) s).sqlBuffer = [] := by
  intro lines
  induction lines with
  | nil => intro s hs; exact hs
  | cons l ls ih =>
    intro s hs
    rw [List.foldl_cons]
    apply ih
    intro hst
    cases hl : HasPrefix l "# Time:".toList with
    | true =>
      have h2 : (scanLine D s l).entryStarted = true := by
        unfold scanLine; simp only [hl, if_true]
      rw [h2] at hst; cases hst
    | false =>
      cases hopen : s.entryStarted with
      | false => rw [scanLine_idle D s l hl hopen]; exact hs hopen
      | true =>
        rw [(scanLine_body D s l hl hopen).2.1] at hst; cases hst

/-- What `finalizeEntry` leaves in the accumulator is blank. -/
theorem finalize_buffer_blank (D : Deps) (s : ParserState) :
    TrimSpace (s.finalize D).sqlBuffer = [] := by
  simp only [ParserState.finalize, finalizeEntry]
  by_cases hb : TrimSpace s.sqlBuffer = []
  · simp only [hb, if_true]
  · simp only [hb, if_false]; rfl

/-- A boundary line followed by the end of input writes what the end of input
alone writes. -/
theorem finish_after_boundary (D : Deps) (s : ParserState) (t : Str)
    (ht : HasPrefix t "# Time:".toList = true) (hs : s.entryStarted = false → s.sqlBuffer = []) :
    (finish D (scanLine D s t)).outputFile = (finish D s).outputFile := by
  have hblank : TrimSpace (if s.entryStarted = true then s.finalize D else s).sqlBuffer = [] := by
    cases hopen : s.entryStarted with
    | true => simp only [if_true]; exact finalize_buffer_blank D s
    | false => simp only [Bool.false_eq_true, if_false, hs hopen]; rfl
  unfold scanLine
  simp only [ht, if_true, finish, finalize_output, hblank]

/-! ## Lemmas on trimmed texts -/

theorem dropWhile_head_not (p : Char → Bool) (l : Str) :
    ∀ c ∈ (l.dropWhile p).head?, p c = false := by
  induction l with
  | nil => intro c hc; simp at hc
  | cons a t ih =>
    cases ha : p a with
    | true => rw [List.dropWhile_cons_of_pos ha]; exact ih
    | false =>
      intro c hc
      rw [List.dropWhile_cons_of_neg (by simp [ha])] at hc
      simp only [List.head?_cons, Option.mem_def, Option.some.injEq] at hc
      rw [← hc]; exact ha

theorem rdropWhile_last_not_space (p : Char → Bool) (l : Str) :
    ∀ c ∈ (l.rdropWhile p).getLast?, p c = false := by
  intro c hc
  by_cases hne : l.rdropWhile p = []
  · rw [hne] at hc; simp at hc
  · rw [List.getLast?_eq_getLast _ hne] at hc
    simp only [Option.mem_def, Option.some.injEq] at hc
    have h := List.rdropWhile_last_not p l hne
    rw [hc] at h
    simpa using h

theorem trimSpace_head (b : Str) : ∀ c ∈ (TrimSpace b).head?, isSpace c = false := by
  intro c hc
  unfold TrimSpace at hc
  obtain ⟨u, hu⟩ := List.rdropWhile_prefix isSpace (b.dropWhile isSpace)
  apply dropWhile_head_not isSpace b c
  rw [← hu, List.head?_append]
  simp only [Option.mem_def] at hc
  simp [hc]

theorem trimSpace_last (b : Str) : ∀ c ∈ (TrimSpace b).getLast?, isSpace c = false :=
  rdropWhile_last_not_space isSpace (b.dropWhile isSpace)

theorem trimSpace_eq_self (x : Str) (hh : ∀ c ∈ x.head?, isSpace c = false)
    (hl : ∀ c ∈ x.getLast?, isSpace c = false) : TrimSpace x = x := by
  have h1 : x.dropWhile isSpace = x := by
    cases x with
    | nil => rfl
    | cons a t =>
      have ha : isSpace a = false := hh a (by simp)
      exact List.dropWhile_cons_of_neg (by simp [ha])
  unfold TrimSpace
  rw [h1, List.rdropWhile_eq_self_iff]
  intro hne
  have h2 := hl (x.getLast hne) (by simp [List.getLast?_eq_getLast _ hne])
  simp [h2]

theorem trimSpace_idem (b : Str) : TrimSpace (TrimSpace b) = TrimSpace b :=
  trimSpace_eq_self _ (trimSpace_head b) (trimSpace_last b)

/-! ## Lemmas on blocks -/

/-- The SQL texts of the emitted records are the non-empty block bodies. -/
theorem sql_of_ParseLogs (D : Deps) (lines : List Str) :
    (ParseLogs D lines).map (fun r => r.SQL) =
      ((splitBlocks lines).2.map specBody).filter fun b => decide (b ≠ []) := by
  have h := run_sql_idle D lines ParserState.init rfl rfl
  simpa [ParseLogs, ParserState.init] using h

theorem splitBlocks_no_boundary : ∀ blk : List Str,
    (∀ l ∈ blk, HasPrefix l "# Time:".toList = false) → splitBlocks blk = (blk, []) := by
  intro blk
  induction blk with
  | nil => intro _; rfl
  | cons l ls ih =>
    intro h
    have hl := h l (List.mem_cons_self l ls)
    have hls := ih fun x hx => h x (List.mem_cons_of_mem l hx)
    simp only [splitBlocks, hl, Bool.false_eq_true, if_false, hls]

theorem splitBlocks_fst_of_head (b : List Str)
    (hb : ∀ l ∈ b.head?, HasPrefix l "# Time:".toList = true) : (splitBlocks b).1 = [] := by
  cases b with
  | nil => rfl
  | cons l ls =>
    have hl : HasPrefix l "# Time:".toList = true := hb l (by simp)
    simp only [splitBlocks, hl, if_true]

theorem splitBlocks_append (a b : List Str)
    (hb : ∀ l ∈ b.head?, HasPrefix l "# Time:".toList = true) :
    splitBlocks (a ++ b) = ((splitBlocks a).1, (splitBlocks a).2 ++ (splitBlocks b).2) := by
  induction a with
  | nil =>
    have h1 := splitBlocks_fst_of_head b hb
    simp only [List.nil_append, splitBlocks]
    exact Prod.ext h1 rfl
  | cons l ls ih =>
    rw [List.cons_append]
    cases hl : HasPrefix l "# Time:".toList with
    | true => simp only [splitBlocks, hl, if_true, ih, List.cons_append]
    | false => simp only [splitBlocks, hl, Bool.false_eq_true, if_false, ih]

theorem splitBlocks_length (lines : List Str) :
    (splitBlocks lines).2.length = lines.countP fun l => HasPrefix l "# Time:".toList := by
  induction lines with
  | nil => rfl
  | cons l ls ih =>
    rw [List.countP_cons]
    cases hl : HasPrefix l "# Time:".toList with
    | true => simp only [splitBlocks, hl, if_true, List.length_cons, ih]
    | false => simp only [splitBlocks, hl, Bool.false_eq_true, if_false, ih, Nat.add_zero]

theorem bodyText_filter (blk : List Str) : bodyText blk = bodyText (blk.filter isBodyLine) := by
  induction blk with
  | nil => rfl
  | cons l ls ih =>
    cases hl : isBodyLine l with
    | true => simp only [bodyText, List.filter_cons, hl, if_true, ih]
    | false => simp only [bodyText, List.filter_cons, hl, Bool.false_eq_true, if_false, ih]

/-- The body of three trimmed, non-empty body lines is the lines joined by
single blanks. -/
theorem trimSpace_three_lines (l1 l2 l3 : Str) (h1 : l1 ≠ []) (t1 : TrimSpace l1 = l1)
    (h3 : l3 ≠ []) (t3 : TrimSpace l3 = l3) :
    TrimSpace ((l1 ++ " ".toList) ++ ((l2 ++ " ".toList) ++ ((l3 ++ " ".toList) ++ []))) =
      l1 ++ " ".toList ++ l2 ++ " ".toList ++ l3 := by
  have e : (l1 ++ " ".toList) ++ ((l2 ++ " ".toList) ++ ((l3 ++ " ".toList) ++ [])) =
      (l1 ++ (" ".toList ++ l2 ++ " ".toList ++ l3)) ++ " ".toList := by
    simp only [List.append_assoc, List.append_nil]
  have e2 : l1 ++ " ".toList ++ l2 ++ " ".toList ++ l3 =
      l1 ++ (" ".toList ++ l2 ++ " ".toList ++ l3) := by
    simp only [List.append_assoc]
  rw [e, e2, trimSpace_append_blank _ _ (by decide)]
  apply trimSpace_eq_self
  · rw [List.head?_append_of_ne_nil l1 h1]
    have h := trimSpace_head l1
    rwa [t1] at h
  · have hne : " ".toList ++ l2 ++ " ".toList ++ l3 ≠ [] := by
      intro hcon
      exact h3 (List.append_eq_nil.mp hcon).2
    rw [List.getLast?_append_of_ne_nil l1 hne, List.getLast?_append_of_ne_nil _ h3]
    have h := trimSpace_last l3
    rwa [t3] at h

/-! ## Theorems -/

/-- C1: `finalizeEntry` appends a record to the output exactly when the
accumulated SQL text is non-empty after trimming, and leaves the output as it
was exactly when the trimmed text is empty; two consecutive boundary lines
with nothing between them therefore emit no record. -/
theorem finalizeEntry_writes_iff_sql_nonempty (D : Deps) (entry : LogEntry) (sqlBuffer : Str)
    (outputFile : List LogEntry) (t1 t2 : Str)
    (h1 : HasPrefix t1 "# Time:".toList = true) (h2 : HasPrefix t2 "# Time:".toList = true) :
    (TrimSpace sqlBuffer ≠ [] ↔
      (finalizeEntry D entry sqlBuffer outputFile).2.2 =
        outputFile ++ [finalRecord D entry sqlBuffer]) ∧
    (TrimSpace sqlBuffer = [] ↔
      (finalizeEntry D entry sqlBuffer outputFile).2.2 = outputFile) ∧
    ParseLogs D [t1, t2] = [] := by
  refine ⟨?_, ?_, ?_⟩
  · rw [finalizeEntry_output]
    by_cases hb : TrimSpace sqlBuffer = [] <;> simp [hb]
  · rw [finalizeEntry_output]
    by_cases hb : TrimSpace sqlBuffer = [] <;> simp [hb]
  · have ht : TrimSpace ([] : Str) = [] := rfl
    simp only [ParseLogs, List.foldl_cons, List.foldl_nil, scanLine, h1, h2, if_true, finish,
      ParserState.init, ParserState.finalize, finalizeEntry, ht, Bool.false_eq_true, if_false]

theorem finalizeEntry_writes_iff_sql_nonempty_witness :
    (HasPrefix "# Time: 2024-01-01T00:00:00.000000Z".toList "# Time:".toList = true ∧
      HasPrefix "# Time: 2024-01-01T00:00:01.000000Z".toList "# Time:".toList = true) ∧
    (TrimSpace "SELECT 1; ".toList ≠ [] ↔
      (finalizeEntry sampleDeps LogEntry.empty "SELECT 1; ".toList []).2.2 =
        [] ++ [finalRecord sampleDeps LogEntry.empty "SELECT 1; ".toList]) ∧
    (TrimSpace "SELECT 1; ".toList = [] ↔
      (finalizeEntry sampleDeps LogEntry.empty "SELECT 1; ".toList []).2.2 = []) ∧
    ParseLogs sampleDeps ["# Time: 2024-01-01T00:00:00.000000Z".toList,
      "# Time: 2024-01-01T00:00:01.000000Z".toList] = [] :=
  ⟨⟨by decide, by decide⟩,
    finalizeEntry_writes_iff_sql_nonempty sampleDeps LogEntry.empty "SELECT 1; ".toList []
      "# Time: 2024-01-01T00:00:00.000000Z".toList "# Time: 2024-01-01T00:00:01.000000Z".toList
      (by decide) (by decide)⟩

/-- C4: evaluation of `finalizeEntry` at an entry whose accumulated SQL is
blank (one empty body line): the function returns before its reset, so the
entry keeps its user name and connection id and the accumulator keeps its
content; neither equals its zero value. -/
theorem finalizeEntry_blank_sql_skips_reset :
    finalizeEntry sampleDeps
        { LogEntry.empty with Username := "app".toList, ConnectionID := "7".toList }
        " ".toList [] =
      ({ LogEntry.empty with Username := "app".toList, ConnectionID := "7".toList },
        " ".toList, []) ∧
    (finalizeEntry sampleDeps
        { LogEntry.empty with Username := "app".toList, ConnectionID := "7".toList }
        " ".toList []).1 ≠ LogEntry.empty ∧
    (finalizeEntry sampleDeps
        { LogEntry.empty with Username := "app".toList, ConnectionID := "7".toList }
        " ".toList []).2.1 ≠ [] := by
  decide

/-- C5: every record emitted by `ParseLogs` has as `sql_type` the first
white-space-delimited token of the normalised form of its own `sql`, or
`"other"` when the normalised form has no token, which is the case exactly
when it is empty or all white space. -/
theorem sqlType_is_first_token (D : Deps) (lines : List Str) (r : LogEntry)
    (hr : r ∈ ParseLogs D lines) :
    r.SQLType = (Fields (D.Normalize r.SQL)).headD "other".toList ∧
    (Fields (D.Normalize r.SQL) = [] ↔ ∀ c ∈ D.Normalize r.SQL, isSpace c = true) := by
  refine ⟨?_, fields_eq_nil_iff _⟩
  refine records_of_ParseLogs D
    (fun r => r.SQLType = (Fields (D.Normalize r.SQL)).headD "other".toList) ?_ lines r hr
  intro entry buf _
  simp only [finalRecord]
  cases Fields (D.Normalize (TrimSpace buf)) <;> rfl

theorem sqlType_is_first_token_witness :
    finalRecord sampleDeps LogEntry.empty "SELECT 1; ".toList ∈
        ParseLogs sampleDeps ["# Time:".toList, "SELECT 1;".toList] ∧
    (finalRecord sampleDeps LogEntry.empty "SELECT 1; ".toList).SQLType =
        (Fields (sampleDeps.Normalize
          (finalRecord sampleDeps LogEntry.empty "SELECT 1; ".toList).SQL)).headD
          "other".toList ∧
    (Fields (sampleDeps.Normalize
        (finalRecord sampleDeps LogEntry.empty "SELECT 1; ".toList).SQL) = [] ↔
      ∀ c ∈ sampleDeps.Normalize (finalRecord sampleDeps LogEntry.empty "SELECT 1; ".toList).SQL,
        isSpace c = true) :=
  ⟨by decide,
    sqlType_is_first_token sampleDeps ["# Time:".toList, "SELECT 1;".toList]
      (finalRecord sampleDeps LogEntry.empty "SELECT 1; ".toList) (by decide)⟩

/-- C6: deleting from the input a line that begins with `SET timestamp=`,
`-- ` or `use ` leaves the emitted records unchanged; in particular an entry
with the body lines `SET timestamp=1700000000;` and `SELECT 1;` is emitted
with the SQL text `SELECT 1;` exactly. -/
theorem noise_line_contributes_nothing (D : Deps) (before after : List Str) (x t : Str)
    (hx : isNoise x = true) (ht : HasPrefix t "# Time:".toList = true) :
    ParseLogs D (before ++ x :: after) = ParseLogs D (before ++ after) ∧
    (ParseLogs D [t, "SET timestamp=1700000000;".toList, "SELECT 1;".toList]).map
        (fun r => r.SQL) = ["SELECT 1;".toList] := by
  have key : ∀ (l1 l2 : List Str) (y : Str), isNoise y = true →
      ParseLogs D (l1 ++ y :: l2) = ParseLogs D (l1 ++ l2) := by
    intro l1 l2 y hy
    simp only [ParseLogs, List.foldl_append, List.foldl_cons, scanLine_noise D _ y hy]
  refine ⟨key before after x hx, ?_⟩
  have hk := key [t] ["SELECT 1;".toList] "SET timestamp=1700000000;".toList (by decide)
  simp only [List.singleton_append] at hk
  rw [hk]
  have h1 : HasPrefix "SELECT 1;".toList "# Time:".toList = false := by decide
  have h2 : HasPrefix "SELECT 1;".toList "# User@Host:".toList = false := by decide
  have h3 : HasPrefix "SELECT 1;".toList "# Query_time:".toList = false := by decide
  have h4 : HasPrefix "SELECT 1;".toList "#".toList = false := by decide
  have h5 : isNoise "SELECT 1;".toList = false := by decide
  have h6 : TrimSpace ("SELECT 1;".toList ++ " ".toList) = "SELECT 1;".toList := by decide
  have h7 : "SELECT 1;".toList ≠ [] := by decide
  simp only [ParseLogs, List.foldl_cons, List.foldl_nil, scanLine, ht, h1, h2, h3, h4, h5,
    if_true, finish, ParserState.init, ParserState.finalize, finalizeEntry, finalRecord, h6, h7,
    Bool.false_eq_true, if_false, Bool.not_false, List.nil_append, List.map_cons, List.map_nil]

theorem noise_line_contributes_nothing_witness :
    (isNoise "use shop;".toList = true ∧
      HasPrefix "# Time: 2024-01-01T00:00:00.000000Z".toList "# Time:".toList = true) ∧
    ParseLogs sampleDeps (["# Time: 2024-01-01T00:00:00.000000Z".toList] ++
        "use shop;".toList :: ["SELECT 1;".toList]) =
      ParseLogs sampleDeps (["# Time: 2024-01-01T00:00:00.000000Z".toList] ++
        ["SELECT 1;".toList]) ∧
    (ParseLogs sampleDeps ["# Time: 2024-01-01T00:00:00.000000Z".toList,
        "SET timestamp=1700000000;".toList, "SELECT 1;".toList]).map (fun r => r.SQL) =
      ["SELECT 1;".toList] :=
  ⟨⟨by decide, by decide⟩,
    noise_line_contributes_nothing sampleDeps ["# Time: 2024-01-01T00:00:00.000000Z".toList]
      ["SELECT 1;".toList] "use shop;".toList "# Time: 2024-01-01T00:00:00.000000Z".toList
      (by decide) (by decide)⟩

/-- C2: the `sql` values of the records emitted by `ParseLogs` are, in the
same order, the non-empty bodies of the blocks of the input (one block per
`# Time:` line, the body being the trimmed concatenation of `line + " "` over
the block's lines that start neither with `#` nor with a noise prefix). -/
theorem ParseLogs_sql_eq_block_bodies (D : Deps) (lines : List Str) :
    (ParseLogs D lines).map (fun r => r.SQL) = specSQLTexts lines := by
  have h := run_sql_idle D lines ParserState.init rfl rfl
  simpa [ParseLogs, specSQLTexts, specBlocks, ParserState.init] using h

/-- C3: evaluation of `ParseLogs` on an input whose first entry has marker
lines but no SQL (an administrator command) and whose second entry has SQL
but no marker line of its own: the one record emitted, for the second entry,
carries the user name, connection id, query time and row count of the first. -/
theorem metadata_of_dropped_entry_leaks :
    (ParseLogs sampleDeps
      ["# Time: 2024-01-01T00:00:00.000000Z".toList,
        "# User@Host: app[app] @ localhost []  Id:     7".toList,
        "# Query_time: 0.000100  Lock_time: 0.000000 Rows_sent: 2  Rows_examined: 0".toList,
        "SET timestamp=1704067200;".toList,
        "# administrator command: Quit;".toList,
        "# Time: 2024-01-01T00:00:01.000000Z".toList,
        "SELECT 1;".toList]).map
        (fun r => (r.Username, r.ConnectionID, r.QueryTime, r.RowsSent, r.SQL)) =
      [("app".toList, "7".toList, 100, 2, "SELECT 1;".toList)] := by
  decide

/-- C9: on a boundary line that matches the legacy pattern (and the standard
one), the timestamp after the line is the legacy capture `YYMMDD HH:MM:SS`
parsed with the legacy layout, or, when that parse fails, the timestamp the
entry had before the extraction; how any other layout is parsed has no
influence on the state after the line. -/
theorem legacy_time_takes_precedence (D : Deps) (s : ParserState) (line d c g : Str)
    (hp : HasPrefix line "# Time:".toList = true)
    (h56 : reTime56 line = some (d, c)) (_hstd : reTime line = some g) :
    (scanLine D s line).currentEntry.Timestamp =
      (match D.timeParse layout56 (d ++ " ".toList ++ c) with
        | some t => unixSeconds t
        | none => (if s.entryStarted then s.finalize D else s).currentEntry.Timestamp) ∧
    ∀ other : Str → Str → Option Time,
      scanLine { D with timeParse := fun layout v =>
        if layout = layout56 then D.timeParse layout v else other layout v } s line =
        scanLine D s line := by
  constructor
  · unfold scanLine
    simp only [hp, if_true, setTimestamp, h56]
    cases D.timeParse layout56 (d ++ " ".toList ++ c) <;> rfl
  · intro other
    unfold scanLine
    simp only [hp, if_true, setTimestamp, h56]
    rfl

theorem legacy_time_takes_precedence_witness :
    (HasPrefix "# Time: 140101  1:02:03".toList "# Time:".toList = true ∧
      reTime56 "# Time: 140101  1:02:03".toList = some ("140101".toList, "1:02:03".toList) ∧
      reTime "# Time: 140101  1:02:03".toList = some "140101".toList) ∧
    (scanLine sampleDeps ParserState.init "# Time: 140101  1:02:03".toList).currentEntry.Timestamp =
      (match sampleDeps.timeParse layout56 ("140101".toList ++ " ".toList ++ "1:02:03".toList) with
        | some t => unixSeconds t
        | none => (if ParserState.init.entryStarted then ParserState.init.finalize sampleDeps
            else ParserState.init).currentEntry.Timestamp) ∧
    ∀ other : Str → Str → Option Time,
      scanLine { sampleDeps with timeParse := fun layout v =>
        if layout = layout56 then sampleDeps.timeParse layout v else other layout v }
          ParserState.init "# Time: 140101  1:02:03".toList =
        scanLine sampleDeps ParserState.init "# Time: 140101  1:02:03".toList :=
  ⟨⟨by decide, by decide, by decide⟩,
    legacy_time_takes_precedence sampleDeps ParserState.init "# Time: 140101  1:02:03".toList
      "140101".toList "1:02:03".toList "140101".toList (by decide) (by decide) (by decide)⟩

/-- C10: evaluation of the boundary branch on a line with a positive zone
offset. The standard pattern captures `2024-01-01T12:00:00.123456`, which
`time.Parse` rejects (no zone); the error is dropped and the timestamp is
overwritten with the Unix time of the zero `time.Time`, about -6795364578.87
seconds, instead of being left at its previous value 0. On a legacy line with
an unparsable capture (month 13) the timestamp is left alone. -/
theorem standard_time_error_overwrites_timestamp :
    reTime56 "# Time: 2024-01-01T12:00:00.123456+08:00".toList = none ∧
    reTime "# Time: 2024-01-01T12:00:00.123456+08:00".toList =
      some "2024-01-01T12:00:00.123456".toList ∧
    sampleDeps.timeParse RFC3339Nano "2024-01-01T12:00:00.123456".toList = none ∧
    ParserState.init.currentEntry.Timestamp = F64.zero ∧
    (scanLine sampleDeps ParserState.init
      "# Time: 2024-01-01T12:00:00.123456+08:00".toList).currentEntry.Timestamp =
        (F64.ofInt (-6795364578871345152)).divNat 1000000000 ∧
    (F64.ofInt (-6795364578871345152)).divNat 1000000000 = F64.fin true 890682026081825 (-17) ∧
    (scanLine sampleDeps ParserState.init
      "# Time: 141301  1:02:03".toList).currentEntry.Timestamp = F64.zero := by
  decide

/-- C8 (amended): on a line in which the first place where `Rows_sent: ` is
followed by a digit carries the digit string `ds`, `processQueryTimeAndRowsSent`
sets the row count to the integer `ds` when it is below `2^63` and to
`2^63 - 1` otherwise; on a line in which the first place where `Query_time: `
is followed by a decimal number carries `0.001234`, it sets the query time
to 1234. Nothing is stated about the query time stored for other values. -/
theorem rowsSent_conversion_and_sample_queryTime (D : Deps) (entry : LogEntry)
    (pre ds rest pre2 rest2 : Str)
    (hfirst : ∀ k, k < pre.length →
      rowsHere ((pre ++ "Rows_sent: ".toList ++ ds ++ rest).drop k) = false)
    (hds : ds ≠ []) (hdsd : ∀ c ∈ ds, isDigit c = true)
    (hrest : rest.takeWhile isDigit = [])
    (hfirst2 : ∀ k, k < pre2.length →
      queryTimeHere ((pre2 ++ "Query_time: 0.001234".toList ++ rest2).drop k) = false)
    (hrest2 : rest2.takeWhile isDigit = []) :
    (processQueryTimeAndRowsSent D
        (pre ++ "Rows_sent: ".toList ++ ds ++ rest) entry).RowsSent =
      (if digitsVal ds < 2 ^ 63 then (digitsVal ds : Int) else 2 ^ 63 - 1) ∧
    (processQueryTimeAndRowsSent D
        (pre2 ++ "Query_time: 0.001234".toList ++ rest2) entry).QueryTime = 1234 := by
  constructor
  · have e : pre ++ "Rows_sent: ".toList ++ ds ++ rest =
        pre ++ ("Rows_sent: ".toList ++ (ds ++ rest)) := by
      simp only [List.append_assoc]
    rw [e] at hfirst
    rw [e, (processQueryTime_rowsSent_frame D _ entry).2,
      reRows_first pre ds rest hfirst hds hdsd (head_of_takeWhile_nil isDigit rest hrest)]
    exact Atoi_digits ds hds hdsd
  · have e : pre2 ++ "Query_time: 0.001234".toList ++ rest2 =
        pre2 ++ ("Query_time: ".toList ++
          ("0".toList ++ (".".toList ++ ("001234".toList ++ rest2)))) := by
      rw [List.append_assoc]; rfl
    rw [e] at hfirst2
    rw [e, (processQueryTime_rowsSent_frame D _ entry).1,
      reQueryTime_first pre2 "0".toList "001234".toList rest2 hfirst2 (by decide) (by decide)
        (by decide) (by decide) (head_of_takeWhile_nil isDigit rest2 hrest2)]
    rfl

theorem rowsSent_conversion_and_sample_queryTime_witness :
    ((∀ k, k < "# Query_time: 0.001234  Lock_time: 0.000000 ".toList.length →
        rowsHere (("# Query_time: 0.001234  Lock_time: 0.000000 ".toList ++
          "Rows_sent: ".toList ++ "3".toList ++ "  Rows_examined: 0".toList).drop k) = false) ∧
      "3".toList ≠ [] ∧ (∀ c ∈ "3".toList, isDigit c = true) ∧
      "  Rows_examined: 0".toList.takeWhile isDigit = [] ∧
      (∀ k, k < "# ".toList.length →
        queryTimeHere (("# ".toList ++ "Query_time: 0.001234".toList ++
          "  Lock_time: 0.000000 Rows_sent: 3".toList).drop k) = false) ∧
      "  Lock_time: 0.000000 Rows_sent: 3".toList.takeWhile isDigit = []) ∧
    (processQueryTimeAndRowsSent sampleDeps
        ("# Query_time: 0.001234  Lock_time: 0.000000 ".toList ++ "Rows_sent: ".toList ++
          "3".toList ++ "  Rows_examined: 0".toList) LogEntry.empty).RowsSent =
      (if digitsVal "3".toList < 2 ^ 63 then (digitsVal "3".toList : Int) else 2 ^ 63 - 1) ∧
    (processQueryTimeAndRowsSent sampleDeps
        ("# ".toList ++ "Query_time: 0.001234".toList ++
          "  Lock_time: 0.000000 Rows_sent: 3".toList) LogEntry.empty).QueryTime = 1234 :=
  ⟨⟨by decide, by decide, by decide, by decide, by decide, by decide⟩,
    rowsSent_conversion_and_sample_queryTime sampleDeps LogEntry.empty
      "# Query_time: 0.001234  Lock_time: 0.000000 ".toList "3".toList
      "  Rows_examined: 0".toList "# ".toList "  Lock_time: 0.000000 Rows_sent: 3".toList
      (by decide) (by decide) (by decide) (by decide) (by decide) (by decide)⟩

/-- C8 (counterexample): for the six-digit value `0.000249` the float64
product `0.000249 * 1000000` is just below 249 and truncates to 248, not to
the integer 249 obtained by shifting the decimal point; and a row count of
`18446744073709551615` is stored as `2^63 - 1`. -/
theorem queryTime_truncation_not_decimal_shift :
    (processQueryTimeAndRowsSent sampleDeps
        "# Query_time: 0.000249  Lock_time: 0.000000 Rows_sent: 18446744073709551615  Rows_examined: 0".toList
        LogEntry.empty).QueryTime = 248 ∧
    specMicros "0".toList "000249".toList = 249 ∧
    (processQueryTimeAndRowsSent sampleDeps
        "# Query_time: 0.000249  Lock_time: 0.000000 Rows_sent: 18446744073709551615  Rows_examined: 0".toList
        LogEntry.empty).QueryTime ≠ specMicros "0".toList "000249".toList ∧
    (processQueryTimeAndRowsSent sampleDeps
        "# Query_time: 0.000249  Lock_time: 0.000000 Rows_sent: 18446744073709551615  Rows_examined: 0".toList
        LogEntry.empty).RowsSent = 9223372036854775807 := by
  decide

/-- Evaluation of `processQueryTimeAndRowsSent` at a line of an ordinary log
with `Query_time: 0.000249`: the stored query time is 248, one microsecond
less than the 249 microseconds of the log (the float64 product
`0.000249 * 1000000` is truncated); the row count is read as written. -/
theorem queryTime_0_000249_stored_as_248 :
    (processQueryTimeAndRowsSent sampleDeps
        "# Query_time: 0.000249  Lock_time: 0.000000 Rows_sent: 1  Rows_examined: 0".toList
        LogEntry.empty).QueryTime = 248 ∧
    (processQueryTimeAndRowsSent sampleDeps
        "# Query_time: 0.000249  Lock_time: 0.000000 Rows_sent: 1  Rows_examined: 0".toList
        LogEntry.empty).RowsSent = 1 := by
  decide

/-- C7 (amended): an input made of one `# Time:` line, one `# User@Host:` line
on which the user pattern captures `u` and the id pattern captures `n`, one
`# Query_time:` line on which the query-time pattern captures `q` and the rows
pattern captures `r`, and one non-blank body line, yields exactly one record,
with user name `u`, connection id `n`, row count `r` when `r` is below `2^63`
and `2^63 - 1` otherwise, and SQL the trimmed body line; when `q` is
`0.001234` its query time is 1234. So for user `root`, `Id: 5`,
`Query_time: 0.001234`, `Rows_sent: 3` and `SELECT * FROM t;` the record has
`root`, `5`, 1234, 3 and `SELECT * FROM t;`. Nothing is stated about the query
time of the record for other values of `q`. -/
theorem single_entry_record (D : Deps) (t uh qt body u n q r : Str)
    (ht : HasPrefix t "# Time:".toList = true)
    (huh : HasPrefix uh "# User@Host:".toList = true)
    (hu : reUser uh = some u) (hn : reConnectionID uh = some n)
    (hqt : HasPrefix qt "# Query_time:".toList = true)
    (hq : reQueryTime qt = some q) (hr : reRows qt = some r)
    (hb1 : HasPrefix body "#".toList = false) (hb2 : isNoise body = false)
    (hb3 : TrimSpace body ≠ []) :
    (∃ e, ParseLogs D [t, uh, qt, body] = [e] ∧ e.Username = u ∧ e.ConnectionID = n ∧
      e.RowsSent = (if digitsVal r < 2 ^ 63 then (digitsVal r : Int) else 2 ^ 63 - 1) ∧
      e.SQL = TrimSpace body ∧ (q = "0.001234".toList → e.QueryTime = 1234)) ∧
    (ParseLogs D
      ["# Time: 2024-01-01T00:00:00.000000Z".toList,
        "# User@Host: root[root] @ localhost []  Id: 5".toList,
        "# Query_time: 0.001234  Lock_time: 0.000000 Rows_sent: 3  Rows_examined: 0".toList,
        "SELECT * FROM t;".toList]).map
        (fun e => (e.Username, e.ConnectionID, e.QueryTime, e.RowsSent, e.SQL)) =
      [("root".toList, "5".toList, 1234, 3, "SELECT * FROM t;".toList)] := by
  refine ⟨?_, rfl⟩
  have huh_t : HasPrefix uh "# Time:".toList = false :=
    hasPrefix_third_ne uh _ _ '#' ' ' 'U' 'T' huh (by decide)
  have hqt_t : HasPrefix qt "# Time:".toList = false :=
    hasPrefix_third_ne qt _ _ '#' ' ' 'Q' 'T' hqt (by decide)
  have hqt_u : HasPrefix qt "# User@Host:".toList = false :=
    hasPrefix_third_ne qt _ _ '#' ' ' 'Q' 'U' hqt (by decide)
  have hb_t : HasPrefix body "# Time:".toList = false := hasPrefix_of_marker_false body _ hb1
  have hb_u : HasPrefix body "# User@Host:".toList = false :=
    hasPrefix_of_marker_false body _ hb1
  have hb_q : HasPrefix body "# Query_time:".toList = false :=
    hasPrefix_of_marker_false body _ hb1
  have htrim : TrimSpace (body ++ " ".toList) = TrimSpace body :=
    trimSpace_append_blank body _ (by decide)
  have hrd := reRows_digits qt r hr
  have hatoi := Atoi_digits r hrd.1 hrd.2
  simp only [ParseLogs, List.foldl_cons, List.foldl_nil, scanLine, ht, huh, huh_t, hqt, hqt_t,
    hqt_u, hb1, hb_t, hb_u, hb_q, hb2, hu, hn, if_true, if_false, Bool.false_eq_true,
    Bool.not_false, ParserState.init, finish, ParserState.finalize, finalizeEntry,
    List.nil_append, htrim, hb3]
  refine ⟨_, rfl, ?_, ?_, ?_, ?_, ?_⟩
  · simp only [finalRecord, (processQueryTime_other_fields D qt _).1]
  · simp only [finalRecord, (processQueryTime_other_fields D qt _).2]
  · simp only [finalRecord, (processQueryTime_rowsSent_frame D qt _).2, hr, hatoi]
  · simp only [finalRecord, htrim]
  · intro hq1
    subst hq1
    simp only [finalRecord, (processQueryTime_rowsSent_frame D qt _).1, hq]
    rfl

theorem single_entry_record_witness :
    (HasPrefix "# Time: 2024-01-01T00:00:00.000000Z".toList "# Time:".toList = true ∧
      HasPrefix "# User@Host: root[root] @ localhost []  Id: 5".toList
        "# User@Host:".toList = true ∧
      reUser "# User@Host: root[root] @ localhost []  Id: 5".toList = some "root".toList ∧
      reConnectionID "# User@Host: root[root] @ localhost []  Id: 5".toList = some "5".toList ∧
      HasPrefix "# Query_time: 0.001234  Lock_time: 0.000000 Rows_sent: 3  Rows_examined: 0".toList
        "# Query_time:".toList = true ∧
      reQueryTime
        "# Query_time: 0.001234  Lock_time: 0.000000 Rows_sent: 3  Rows_examined: 0".toList =
        some "0.001234".toList ∧
      reRows "# Query_time: 0.001234  Lock_time: 0.000000 Rows_sent: 3  Rows_examined: 0".toList =
        some "3".toList ∧
      HasPrefix "SELECT * FROM t;".toList "#".toList = false ∧
      isNoise "SELECT * FROM t;".toList = false ∧
      TrimSpace "SELECT * FROM t;".toList ≠ []) ∧
    (∃ e, ParseLogs sampleDeps
        ["# Time: 2024-01-01T00:00:00.000000Z".toList,
          "# User@Host: root[root] @ localhost []  Id: 5".toList,
          "# Query_time: 0.001234  Lock_time: 0.000000 Rows_sent: 3  Rows_examined: 0".toList,
          "SELECT * FROM t;".toList] = [e] ∧
      e.Username = "root".toList ∧ e.ConnectionID = "5".toList ∧
      e.RowsSent = (if digitsVal "3".toList < 2 ^ 63 then (digitsVal "3".toList : Int)
        else 2 ^ 63 - 1) ∧
      e.SQL = TrimSpace "SELECT * FROM t;".toList ∧
      ("0.001234".toList = "0.001234".toList → e.QueryTime = 1234)) :=
  ⟨⟨by decide, by decide, by decide, by decide, by decide, by decide, by decide, by decide,
      by decide, by decide⟩,
    (single_entry_record sampleDeps "# Time: 2024-01-01T00:00:00.000000Z".toList
      "# User@Host: root[root] @ localhost []  Id: 5".toList
      "# Query_time: 0.001234  Lock_time: 0.000000 Rows_sent: 3  Rows_examined: 0".toList
      "SELECT * FROM t;".toList "root".toList "5".toList "0.001234".toList "3".toList
      (by decide) (by decide) (by decide) (by decide) (by decide) (by decide) (by decide)
      (by decide) (by decide) (by decide)).1⟩

/-- C7 (counterexample): with `Query_time: 0.001001` the single record has
query time 1000, not the 1001 microseconds that `0.001001` seconds are; and
with `Rows_sent: 18446744073709551615` it has row count `2^63 - 1`. -/
theorem single_entry_query_time_one_short :
    (ParseLogs sampleDeps
      ["# Time: 2024-01-01T00:00:00.000000Z".toList,
        "# User@Host: root[root] @ localhost []  Id: 5".toList,
        "# Query_time: 0.001001  Lock_time: 0.000000 Rows_sent: 18446744073709551615  Rows_examined: 0".toList,
        "SELECT * FROM t;".toList]).map (fun e => (e.QueryTime, e.RowsSent)) =
      [(1000, 9223372036854775807)] ∧
    specMicros "0".toList "001001".toList = 1001 ∧
    digitsVal "18446744073709551615".toList = 18446744073709551615 := by
  decide

/-- Evaluation of `ParseLogs` at a single entry of an ordinary log with
`Query_time: 0.001001`: the record has query time 1000, one microsecond less
than the 1001 microseconds of the log; the other fields are as logged. -/
theorem single_entry_0_001001_stored_as_1000 :
    (ParseLogs sampleDeps
      ["# Time: 2024-01-01T00:00:00.000000Z".toList,
        "# User@Host: root[root] @ localhost []  Id: 5".toList,
        "# Query_time: 0.001001  Lock_time: 0.000000 Rows_sent: 3  Rows_examined: 0".toList,
        "SELECT * FROM t;".toList]).map
        (fun e => (e.Username, e.ConnectionID, e.QueryTime, e.RowsSent, e.SQL)) =
      [("root".toList, "5".toList, 1000, 3, "SELECT * FROM t;".toList)] := by
  decide

/-- C12: an input without any line starting with `# Time:` emits no record,
whatever else it contains. -/
theorem no_boundary_no_records (D : Deps) (lines : List Str)
    (h : ∀ l ∈ lines, HasPrefix l "# Time:".toList = false) : ParseLogs D lines = [] := by
  unfold ParseLogs
  rw [foldl_idle D lines ParserState.init rfl h]
  rfl

theorem no_boundary_no_records_witness :
    (∀ l ∈ ["# User@Host: root[root] @ localhost []  Id: 5".toList,
        "# Query_time: 0.001234  Lock_time: 0.000000 Rows_sent: 3  Rows_examined: 0".toList,
        "SELECT * FROM t;".toList], HasPrefix l "# Time:".toList = false) ∧
    ParseLogs sampleDeps ["# User@Host: root[root] @ localhost []  Id: 5".toList,
      "# Query_time: 0.001234  Lock_time: 0.000000 Rows_sent: 3  Rows_examined: 0".toList,
      "SELECT * FROM t;".toList] = [] :=
  ⟨by decide,
    no_boundary_no_records sampleDeps ["# User@Host: root[root] @ localhost []  Id: 5".toList,
      "# Query_time: 0.001234  Lock_time: 0.000000 Rows_sent: 3  Rows_examined: 0".toList,
      "SELECT * FROM t;".toList] (by decide)⟩

/-- C13: deleting from the input a line that starts with `#` but with none of
`# Time:`, `# User@Host:` and `# Query_time:` leaves the emitted records
unchanged. -/
theorem other_marker_line_ignored (D : Deps) (before after : List Str) (x : Str)
    (h0 : HasPrefix x "#".toList = true) (h1 : HasPrefix x "# Time:".toList = false)
    (h2 : HasPrefix x "# User@Host:".toList = false)
    (h3 : HasPrefix x "# Query_time:".toList = false) :
    ParseLogs D (before ++ x :: after) = ParseLogs D (before ++ after) := by
  simp only [ParseLogs, List.foldl_append, List.foldl_cons,
    scanLine_other_marker D _ x h0 h1 h2 h3]

theorem other_marker_line_ignored_witness :
    (HasPrefix "# administrator command: Quit;".toList "#".toList = true ∧
      HasPrefix "# administrator command: Quit;".toList "# Time:".toList = false ∧
      HasPrefix "# administrator command: Quit;".toList "# User@Host:".toList = false ∧
      HasPrefix "# administrator command: Quit;".toList "# Query_time:".toList = false) ∧
    ParseLogs sampleDeps (["# Time: 2024-01-01T00:00:00.000000Z".toList, "SELECT 1".toList] ++
        "# administrator command: Quit;".toList :: ["FROM t;".toList]) =
      ParseLogs sampleDeps (["# Time: 2024-01-01T00:00:00.000000Z".toList, "SELECT 1".toList] ++
        ["FROM t;".toList]) :=
  ⟨by decide,
    other_marker_line_ignored sampleDeps
      ["# Time: 2024-01-01T00:00:00.000000Z".toList, "SELECT 1".toList] ["FROM t;".toList]
      "# administrator command: Quit;".toList (by decide) (by decide) (by decide) (by decide)⟩

/-- C14: the end of input finalises the open entry as a boundary line would:
appending one bare `# Time:` line to any input leaves the emitted records
unchanged (nothing is left unwritten and nothing is written twice). -/
theorem end_of_input_finalizes_like_boundary (D : Deps) (lines : List Str) :
    ParseLogs D (lines ++ ["# Time:".toList]) = ParseLogs D lines := by
  unfold ParseLogs
  rw [List.foldl_append, List.foldl_cons, List.foldl_nil]
  exact finish_after_boundary D _ _ (by decide)
    (idle_buffer_empty D lines ParserState.init fun _ => rfl)

/-- C17: the lines before the first line starting with `# Time:` are not
processed: removing them all leaves the emitted records unchanged. -/
theorem lines_before_first_boundary_ignored (D : Deps) (lines : List Str) :
    ParseLogs D (lines.dropWhile fun l => !HasPrefix l "# Time:".toList) = ParseLogs D lines := by
  unfold ParseLogs
  rw [← foldl_dropWhile_idle D lines ParserState.init rfl]

/-- C15: every emitted record has as `digest` the string form of
`DigestNormalized(Normalize(sql))` of its own `sql`; hence two emitted records
(of the same or of different inputs) with equal `sql` have equal `digest` and
equal `sql_type`. -/
theorem digest_is_function_of_sql (D : Deps) (lines1 lines2 : List Str) (r1 r2 : LogEntry)
    (h1 : r1 ∈ ParseLogs D lines1) (h2 : r2 ∈ ParseLogs D lines2) :
    r1.Digest = D.DigestNormalized (D.Normalize r1.SQL) ∧
    (r1.SQL = r2.SQL → r1.Digest = r2.Digest ∧ r1.SQLType = r2.SQLType) := by
  have key : ∀ (lines : List Str) (r : LogEntry), r ∈ ParseLogs D lines →
      r.Digest = D.DigestNormalized (D.Normalize r.SQL) ∧
      r.SQLType = (Fields (D.Normalize r.SQL)).headD "other".toList := by
    intro lines r hr
    refine records_of_ParseLogs D
      (fun r => r.Digest = D.DigestNormalized (D.Normalize r.SQL) ∧
        r.SQLType = (Fields (D.Normalize r.SQL)).headD "other".toList) ?_ lines r hr
    intro entry buf _
    refine ⟨rfl, ?_⟩
    simp only [finalRecord]
    cases Fields (D.Normalize (TrimSpace buf)) <;> rfl
  refine ⟨(key lines1 r1 h1).1, fun hsql => ?_⟩
  rw [(key lines1 r1 h1).1, (key lines1 r1 h1).2, (key lines2 r2 h2).1, (key lines2 r2 h2).2, hsql]
  exact ⟨rfl, rfl⟩

theorem digest_is_function_of_sql_witness :
    (finalRecord sampleDeps LogEntry.empty "SELECT 1; ".toList ∈
        ParseLogs sampleDeps ["# Time:".toList, "SELECT 1;".toList] ∧
      finalRecord sampleDeps LogEntry.empty "  SELECT 1; ".toList ∈
        ParseLogs sampleDeps ["# Time:".toList, "# Time:".toList, "  SELECT 1;".toList]) ∧
    (finalRecord sampleDeps LogEntry.empty "SELECT 1; ".toList).Digest =
      sampleDeps.DigestNormalized (sampleDeps.Normalize
        (finalRecord sampleDeps LogEntry.empty "SELECT 1; ".toList).SQL) ∧
    ((finalRecord sampleDeps LogEntry.empty "SELECT 1; ".toList).SQL =
        (finalRecord sampleDeps LogEntry.empty "  SELECT 1; ".toList).SQL →
      (finalRecord sampleDeps LogEntry.empty "SELECT 1; ".toList).Digest =
          (finalRecord sampleDeps LogEntry.empty "  SELECT 1; ".toList).Digest ∧
        (finalRecord sampleDeps LogEntry.empty "SELECT 1; ".toList).SQLType =
          (finalRecord sampleDeps LogEntry.empty "  SELECT 1; ".toList).SQLType) :=
  ⟨⟨by decide, by decide⟩,
    digest_is_function_of_sql sampleDeps ["# Time:".toList, "SELECT 1;".toList]
      ["# Time:".toList, "# Time:".toList, "  SELECT 1;".toList]
      (finalRecord sampleDeps LogEntry.empty "SELECT 1; ".toList)
      (finalRecord sampleDeps LogEntry.empty "  SELECT 1; ".toList) (by decide) (by decide)⟩

/-- C16: the `sql` of every emitted record is non-empty and trimmed: trimming
it again returns it unchanged, and neither its first nor its last character
is white space. -/
theorem emitted_sql_is_trimmed (D : Deps) (lines : List Str) (r : LogEntry)
    (hr : r ∈ ParseLogs D lines) :
    r.SQL ≠ [] ∧ TrimSpace r.SQL = r.SQL ∧ (∀ c ∈ r.SQL.head?, isSpace c = false) ∧
      (∀ c ∈ r.SQL.getLast?, isSpace c = false) := by
  refine records_of_ParseLogs D
    (fun r => r.SQL ≠ [] ∧ TrimSpace r.SQL = r.SQL ∧ (∀ c ∈ r.SQL.head?, isSpace c = false) ∧
      (∀ c ∈ r.SQL.getLast?, isSpace c = false)) ?_ lines r hr
  intro entry buf hb
  exact ⟨hb, trimSpace_idem buf, trimSpace_head buf, trimSpace_last buf⟩

theorem emitted_sql_is_trimmed_witness :
    finalRecord sampleDeps LogEntry.empty "  SELECT 1;   ".toList ∈
        ParseLogs sampleDeps ["# Time:".toList, "  SELECT 1;  ".toList] ∧
    (finalRecord sampleDeps LogEntry.empty "  SELECT 1;   ".toList).SQL ≠ [] ∧
    TrimSpace (finalRecord sampleDeps LogEntry.empty "  SELECT 1;   ".toList).SQL =
      (finalRecord sampleDeps LogEntry.empty "  SELECT 1;   ".toList).SQL ∧
    (∀ c ∈ (finalRecord sampleDeps LogEntry.empty "  SELECT 1;   ".toList).SQL.head?,
      isSpace c = false) ∧
    (∀ c ∈ (finalRecord sampleDeps LogEntry.empty "  SELECT 1;   ".toList).SQL.getLast?,
      isSpace c = false) :=
  ⟨by decide,
    emitted_sql_is_trimmed sampleDeps ["# Time:".toList, "  SELECT 1;  ".toList]
      (finalRecord sampleDeps LogEntry.empty "  SELECT 1;   ".toList) (by decide)⟩

/-- C11: an entry (the lines `blk` between a boundary line `t` and the next
boundary line or the end of input) whose body lines are exactly `l1`, `l2`,
`l3`, each non-empty and without leading or trailing white space, is emitted
with the SQL text `l1 + " " + l2 + " " + l3`; the records before and after it
are those of the lines before and after the entry. -/
theorem three_line_body_joined (D : Deps) (before blk after : List Str) (t l1 l2 l3 : Str)
    (ht : HasPrefix t "# Time:".toList = true)
    (hblk : ∀ l ∈ blk, HasPrefix l "# Time:".toList = false)
    (hafter : ∀ l ∈ after.head?, HasPrefix l "# Time:".toList = true)
    (hbody : blk.filter isBodyLine = [l1, l2, l3])
    (h1 : l1 ≠ []) (t1 : TrimSpace l1 = l1) (_h2 : l2 ≠ []) (_t2 : TrimSpace l2 = l2)
    (h3 : l3 ≠ []) (t3 : TrimSpace l3 = l3) :
    (ParseLogs D (before ++ (t :: blk) ++ after)).map (fun r => r.SQL) =
      (ParseLogs D before).map (fun r => r.SQL) ++
        [l1 ++ " ".toList ++ l2 ++ " ".toList ++ l3] ++
        (ParseLogs D after).map (fun r => r.SQL) := by
  have hb : ∀ l ∈ [l1, l2, l3], isBodyLine l = true := by
    intro l hl
    rw [← hbody] at hl
    exact (List.mem_filter.mp hl).2
  have hb1 : isBodyLine l1 = true := hb l1 (by simp)
  have hb2 : isBodyLine l2 = true := hb l2 (by simp)
  have hb3 : isBodyLine l3 = true := hb l3 (by simp)
  have htb : isBodyLine t = false := isBodyLine_of_marker t _ ht
  have hspec : specBody (t :: blk) = l1 ++ " ".toList ++ l2 ++ " ".toList ++ l3 := by
    simp only [specBody, bodyText, htb, Bool.false_eq_true, if_false]
    rw [bodyText_filter blk, hbody]
    simp only [bodyText, hb1, hb2, hb3, if_true]
    exact trimSpace_three_lines l1 l2 l3 h1 t1 h3 t3
  have hne : l1 ++ " ".toList ++ l2 ++ " ".toList ++ l3 ≠ [] := by
    intro hcon
    exact h3 (List.append_eq_nil.mp hcon).2
  have hhead : ∀ l ∈ ((t :: blk) ++ after).head?, HasPrefix l "# Time:".toList = true := by
    intro l hl
    simp only [List.cons_append, List.head?_cons, Option.mem_def, Option.some.injEq] at hl
    rw [← hl]; exact ht
  have hsb : splitBlocks (t :: blk) = ([], [t :: blk]) := by
    simp only [splitBlocks, ht, if_true, splitBlocks_no_boundary blk hblk]
  rw [sql_of_ParseLogs, sql_of_ParseLogs, sql_of_ParseLogs, List.append_assoc,
    splitBlocks_append before _ hhead, splitBlocks_append (t :: blk) after hafter, hsb]
  have hne2 : l1 ++ (" ".toList ++ (l2 ++ (" ".toList ++ l3))) ≠ [] := by
    simpa only [List.append_assoc] using hne
  simp only [List.map_append, List.filter_append, List.map_cons, List.map_nil, hspec,
    List.filter_cons, hne2, ne_eq, not_false_eq_true, decide_eq_true_eq, if_true,
    List.filter_nil, List.append_assoc]

theorem three_line_body_joined_witness :
    (HasPrefix "# Time: 2024-01-01T00:00:01.000000Z".toList "# Time:".toList = true ∧
      (∀ l ∈ ["# User@Host: root[root] @ localhost []  Id: 5".toList, "SELECT a,".toList,
          "SET timestamp=1704067201;".toList, "b".toList, "FROM t;".toList],
        HasPrefix l "# Time:".toList = false) ∧
      ["# User@Host: root[root] @ localhost []  Id: 5".toList, "SELECT a,".toList,
          "SET timestamp=1704067201;".toList, "b".toList, "FROM t;".toList].filter isBodyLine =
        ["SELECT a,".toList, "b".toList, "FROM t;".toList] ∧
      TrimSpace "SELECT a,".toList = "SELECT a,".toList ∧ TrimSpace "b".toList = "b".toList ∧
      TrimSpace "FROM t;".toList = "FROM t;".toList) ∧
    (ParseLogs sampleDeps (["# Time: 2024-01-01T00:00:00.000000Z".toList, "SELECT 0;".toList] ++
        ("# Time: 2024-01-01T00:00:01.000000Z".toList ::
          ["# User@Host: root[root] @ localhost []  Id: 5".toList, "SELECT a,".toList,
            "SET timestamp=1704067201;".toList, "b".toList, "FROM t;".toList]) ++
        [])).map (fun r => r.SQL) =
      (ParseLogs sampleDeps ["# Time: 2024-01-01T00:00:00.000000Z".toList,
          "SELECT 0;".toList]).map (fun r => r.SQL) ++
        ["SELECT a,".toList ++ " ".toList ++ "b".toList ++ " ".toList ++ "FROM t;".toList] ++
        (ParseLogs sampleDeps []).map (fun r => r.SQL) :=
  ⟨⟨by decide, by decide, by decide, by decide, by decide, by decide⟩,
    three_line_body_joined sampleDeps
      ["# Time: 2024-01-01T00:00:00.000000Z".toList, "SELECT 0;".toList]
      ["# User@Host: root[root] @ localhost []  Id: 5".toList, "SELECT a,".toList,
        "SET timestamp=1704067201;".toList, "b".toList, "FROM t;".toList] []
      "# Time: 2024-01-01T00:00:01.000000Z".toList "SELECT a,".toList "b".toList "FROM t;".toList
      (by decide) (by decide) (fun l hl => by simp at hl) (by decide) (by decide) (by decide)
      (by decide) (by decide) (by decide) (by decide)⟩

/-- C18: `ParseLogs` emits at most as many records as the input has lines
starting with `# Time:`; a `# User@Host:` line does not start a record, so two
statements logged under one time line are merged into one record. -/
theorem records_at_most_boundaries (D : Deps) (lines : List Str) :
    (ParseLogs D lines).length ≤ (lines.countP fun l => HasPrefix l "# Time:".toList) ∧
    (ParseLogs D
      ["# Time: 140101  1:02:03".toList,
        "# User@Host: a[a] @ localhost []  Id: 1".toList, "SELECT 1;".toList,
        "# User@Host: b[b] @ localhost []  Id: 2".toList, "SELECT 2;".toList]).map
        (fun r => (r.Username, r.ConnectionID, r.SQL)) =
      [("b".toList, "2".toList, "SELECT 1; SELECT 2;".toList)] := by
  refine ⟨?_, rfl⟩
  have h := congrArg List.length (sql_of_ParseLogs D lines)
  rw [List.length_map] at h
  rw [h]
  calc (((splitBlocks lines).2.map specBody).filter fun b => decide (b ≠ [])).length
      ≤ ((splitBlocks lines).2.map specBody).length := List.length_filter_le _ _
    _ = (lines.countP fun l => HasPrefix l "# Time:".toList) := by
        rw [List.length_map, splitBlocks_length]

/-- C19: after `finalizeEntry` the accumulator is blank (its trimmed text is
empty) whether or not a record was written; hence the records finalised after
a boundary line carry no text accumulated before it: their SQL texts are those
of the input that starts at the boundary line. -/
theorem accumulator_blank_after_finalize (D : Deps) (entry : LogEntry) (buf : Str)
    (out : List LogEntry) (s : ParserState) (t : Str) (rest : List Str)
    (ht : HasPrefix t "# Time:".toList = true) (hs : s.entryStarted = true) :
    TrimSpace (finalizeEntry D entry buf out).2.1 = [] ∧
    (finish D (rest.foldl (scanLine D) (scanLine D s t))).outputFile.map (fun r => r.SQL) =
      (s.finalize D).outputFile.map (fun r => r.SQL) ++
        (ParseLogs D (t :: rest)).map (fun r => r.SQL) := by
  constructor
  · exact finalize_buffer_blank D ⟨entry, buf, true, out⟩
  · obtain ⟨h1, h2, h3⟩ := scanLine_boundary D s t ht hs
    have htb : isBodyLine t = false := isBodyLine_of_marker t _ ht
    rw [run_sql_open D rest _ h2, h1, trimSpace_append_of_blank _ _ h3, sql_of_ParseLogs,
      finalize_output]
    simp only [splitBlocks, ht, if_true, List.map_cons, specBody, bodyText, htb,
      Bool.false_eq_true, if_false]
    by_cases hb : TrimSpace s.sqlBuffer = []
    · simp [hb]
    · simp [hb, finalRecord]

theorem accumulator_blank_after_finalize_witness :
    (HasPrefix "# Time: 2024-01-01T00:00:01.000000Z".toList "# Time:".toList = true ∧
      (ParserState.mk LogEntry.empty "SELECT 0; ".toList true []).entryStarted = true) ∧
    TrimSpace (finalizeEntry sampleDeps LogEntry.empty "SELECT 0; ".toList []).2.1 = [] ∧
    (finish sampleDeps (["SELECT 1;".toList].foldl (scanLine sampleDeps)
        (scanLine sampleDeps (ParserState.mk LogEntry.empty "SELECT 0; ".toList true [])
          "# Time: 2024-01-01T00:00:01.000000Z".toList))).outputFile.map (fun r => r.SQL) =
      ((ParserState.mk LogEntry.empty "SELECT 0; ".toList true []).finalize
          sampleDeps).outputFile.map (fun r => r.SQL) ++
        (ParseLogs sampleDeps ("# Time: 2024-01-01T00:00:01.000000Z".toList ::
          ["SELECT 1;".toList])).map (fun r => r.SQL) :=
  ⟨⟨by decide, by decide⟩,
    accumulator_blank_after_finalize sampleDeps LogEntry.empty "SELECT 0; ".toList []
      (ParserState.mk LogEntry.empty "SELECT 0; ".toList true [])
      "# Time: 2024-01-01T00:00:01.000000Z".toList ["SELECT 1;".toList] (by decide) (by decide)⟩

end SqlReplay
